import Mathlib

/-!
Verification development for the hhm-plugins repository (HaxBall Headless
Manager plugins).  Each JavaScript function relevant to the checked claims is
shallowly embedded as an executable Lean definition; JS arrays become lists,
JS Sets become insertion-ordered duplicate-free lists, JS objects / Maps
become association lists, and `room.triggerEvent` becomes an append to an
event log.  Theorems about these definitions settle the claims.
-/

/-! ## Small JavaScript collection helpers -/

/-- JS `Set.prototype.add`: appends the element unless already present
(insertion order is preserved). -/
def jsSetAdd {α : Type} [DecidableEq α] (s : List α) (x : α) : List α :=
  if x ∈ s then s else s ++ [x]

/-- JS `Set.prototype.delete`: removes the element and reports whether it was
present. -/
def jsSetDelete {α : Type} [DecidableEq α] (s : List α) (x : α) :
    Bool × List α :=
  (decide (x ∈ s), s.filter (fun y => y ≠ x))

/-- JS `new Set(iterable)`: insertion-ordered deduplication of a list. -/
def jsSetOfList {α : Type} [DecidableEq α] (l : List α) : List α :=
  l.foldl jsSetAdd []

/-- Association-list lookup for JS objects / Maps. -/
def lookupKV {κ α : Type} [DecidableEq κ] : List (κ × α) → κ → Option α
  | [], _ => none
  | (k, v) :: rest, key => if k = key then some v else lookupKV rest key

/-- Association-list update for JS objects / Maps: replace the value in place
when the key exists, append a new entry otherwise (JS property order). -/
def putKV {κ α : Type} [DecidableEq κ] : List (κ × α) → κ → α → List (κ × α)
  | [], key, v => [(key, v)]
  | (k, w) :: rest, key, v =>
    if k = key then (key, v) :: rest else (k, w) :: putKV rest key v

/-- Keys of an association list. -/
def keysOf {κ α : Type} (l : List (κ × α)) : List κ := l.map Prod.fst

namespace SavTest

/-!
Model of the `sav/test` plugin's mock room (source file with the
`room.pluginSpec.name = sav/test` header).  `roomState`, `players`,
`playersOnline`, `bannedConns` and the api/actor functions are translated
directly from the source; `room.log` calls are no-ops and
`room.triggerEvent` appends to an event log.
-/

/-- Mock player object as created by `actorAddPlayer`. -/
structure Player where
  id : Nat
  name : String
  team : Int
  admin : Bool
  position : Option (Int × Int)
  auth : String
  conn : String
deriving Repr, DecidableEq

/-- The mutable `roomState` object of the mock room. -/
structure RoomState where
  password : Option String
  gamePaused : Bool
  gameStarted : Bool
  recording : Bool
  scoreLimit : Int
  stadium : String
  timeLimit : Int
  teamsLock : Bool
deriving Repr, DecidableEq

/-- Events dispatched through `room.triggerEvent` by the modelled functions.
The payloads are the object copies the source passes along; for handlers
that pass `room.getPlayer(...)` the mock `apiGetPlayer` strips auth and conn,
which we keep as the full player record since no claim inspects it. -/
inductive MockEvent where
  | playerJoin (player : Player)
  | playerTeamChange (changed : Player) (byPlayer : Player) (team : Int)
  | gameStart (byPlayer : Option Player)
  | gameStop (byPlayer : Option Player)
  | gamePause (byPlayer : Option Player)
  | gameUnpause (byPlayer : Option Player)
deriving Repr, DecidableEq

/-- Global mutable state of the mock room.  `noPlayer` is the host config
flag `HHM.config.room.noPlayer` read by some api functions;
`apiOverrideActive` guards all api overrides. -/
structure MockState where
  apiOverrideActive : Bool
  noPlayer : Bool
  roomState : RoomState
  players : List Player
  playersOnline : List Nat
  bannedConns : List String
  events : List MockEvent
deriving Repr, DecidableEq

/-- The `teamIds` constant of the source. -/
def teamIds : List Int := [0, 1, 2]

/-- Model of `actorAddPlayer(name, { auth, conn, roomPassword })`.  The random
default auth/conn are explicit arguments.  Returns the updated state and the
player copy returned to the caller (`null` becomes `none`). -/
def actorAddPlayer (s : MockState) (name auth conn : String)
    (roomPassword : Option String) : MockState × Option Player :=
  if s.roomState.password ≠ roomPassword then (s, none)
  else if conn ∈ s.bannedConns then (s, none)
  else
    let playerId := s.players.length
    let p : Player :=
      { id := playerId, name := name, team := 0, admin := false,
        position := none, auth := auth, conn := conn }
    ({ s with
        players := s.players ++ [p],
        playersOnline := jsSetAdd s.playersOnline playerId,
        events := s.events ++ [MockEvent.playerJoin p] },
      some p)

/-- Model of `actorChangePlayerTeam(playerIdBy, team, playerIdChanged)`.
Each early `return room.log(...)` leaves the state unchanged.  The two
`none` branches of the player lookups are unreachable while every online id
has a player record (JS would throw there). -/
def actorChangePlayerTeam (s : MockState) (playerIdBy : Nat) (team : Int)
    (playerIdChanged : Nat) : MockState :=
  if team ∉ teamIds then s
  else if playerIdChanged ∉ s.playersOnline then s
  else
    match s.players.get? playerIdChanged with
    | none => s
    | some target =>
      if target.team = team then s
      else if playerIdBy ∉ s.playersOnline then s
      else
        match s.players.get? playerIdBy with
        | none => s
        | some acting =>
          if ¬ acting.admin ∧ playerIdChanged ≠ playerIdBy then s
          else if ¬ acting.admin ∧ s.roomState.teamsLock then s
          else if ¬ acting.admin ∧ s.roomState.gameStarted then s
          else
            let updated := { target with team := team }
            let byCopy :=
              if playerIdBy = playerIdChanged then updated else acting
            { s with
                players := s.players.set playerIdChanged updated,
                playersOnline :=
                  jsSetAdd (jsSetDelete s.playersOnline playerIdChanged).2
                    playerIdChanged,
                events := s.events
                  ++ [MockEvent.playerTeamChange updated byCopy team] }

/-- Model of `apiStartGame`; the `previousFunction` short-circuit applies only
while the api override is inactive, which the claims never exercise, so the
model covers the `apiOverrideActive` branch. -/
def apiStartGame (s : MockState) : MockState :=
  if ¬ s.roomState.gameStarted then
    { s with
        roomState :=
          { s.roomState with gameStarted := true, gamePaused := false },
        events := s.events ++ [MockEvent.gameStart none] }
  else s

/-- Model of `apiStopGame`. -/
def apiStopGame (s : MockState) : MockState :=
  if s.roomState.gameStarted then
    { s with
        roomState :=
          { s.roomState with gameStarted := false, gamePaused := false },
        events := s.events ++ [MockEvent.gameStop none] }
  else s

/-- Model of `apiPauseGame(pauseState)` after the `!!pauseState` coercion. -/
def apiPauseGame (s : MockState) (pauseState : Bool) : MockState :=
  let previousPauseState := s.roomState.gamePaused
  if s.roomState.gameStarted then
    let s1 := { s with roomState := { s.roomState with gamePaused := pauseState } }
    if pauseState ≠ previousPauseState then
      { s1 with
          events := s1.events ++
            [if pauseState then
              MockEvent.gamePause (if s.noPlayer then none else s.players.get? 0)
            else
              MockEvent.gameUnpause
                (if s.noPlayer then none else s.players.get? 0)] }
    else s1
  else s

/-- Model of `actorStartStopGame(playerId)`.  Note that, unlike
`apiStartGame` and `apiStopGame`, the source toggles `gameStarted` without
touching `gamePaused`. -/
def actorStartStopGame (s : MockState) (playerId : Nat) : MockState :=
  if playerId ∉ s.playersOnline then s
  else
    match s.players.get? playerId with
    | none => s
    | some p =>
      if ¬ p.admin then s
      else if ¬ s.roomState.gameStarted then
        { s with
            roomState := { s.roomState with gameStarted := true },
            events := s.events ++ [MockEvent.gameStart (some p)] }
      else
        { s with
            roomState := { s.roomState with gameStarted := false },
            events := s.events ++ [MockEvent.gameStop (some p)] }

/-- Model of `actorToggleGamePause(playerId)`. -/
def actorToggleGamePause (s : MockState) (playerId : Nat) : MockState :=
  if ¬ s.roomState.gameStarted then s
  else if playerId ∉ s.playersOnline then s
  else
    match s.players.get? playerId with
    | none => s
    | some p =>
      if ¬ p.admin then s
      else
        let newPauseState := ¬ s.roomState.gamePaused
        { s with
            roomState := { s.roomState with gamePaused := newPauseState },
            events := s.events ++
              [if newPauseState then MockEvent.gamePause (some p)
              else MockEvent.gameUnpause (some p)] }

/-- Model of `apiClearBan(playerId)`, instrumented with a Boolean reporting
whether the extension invoked the `previousFunction` it received. -/
def apiClearBan (s : MockState) (playerId : Nat) : MockState × Bool :=
  if ¬ s.apiOverrideActive then (s, true)
  else
    match s.players.get? playerId with
    | none => (s, false)
    | some p =>
      ({ s with bannedConns := s.bannedConns.erase p.conn }, false)

/-- Model of `apiReorderPlayers(playerIdList, moveToTop)`, instrumented with
a Boolean reporting whether the extension invoked the `previousFunction` it
received.  The source filters the id list to online players, removes
duplicates, deletes those ids from `playersOnline`, and re-inserts them at
the front or the back; it neither consults `apiOverrideActive` nor ever
calls `previousFunction`. -/
def apiReorderPlayers (s : MockState) (playerIdList : List Nat)
    (moveToTop : Bool) : MockState × Bool :=
  let filtered := jsSetOfList
    (playerIdList.filter (fun id => id ∈ s.playersOnline))
  let afterDelete := filtered.foldl
    (fun po id => (jsSetDelete po id).2) s.playersOnline
  let newOnline :=
    if moveToTop then jsSetOfList (filtered ++ afterDelete)
    else filtered.foldl jsSetAdd afterDelete
  ({ s with playersOnline := newOnline }, false)

/-- The well-formedness invariant of the mock room used by the claims: every
online player id indexes an existing player record carrying that id. -/
def WFState (s : MockState) : Prop :=
  ∀ id ∈ s.playersOnline, ∃ p, s.players.get? id = some p ∧ p.id = id

instance (s : MockState) : Decidable (WFState s) := by
  unfold WFState
  infer_instance

end SavTest

namespace SavBan

/-!
Model of the `sav/ban` plugin (`src/sav/ban.js`).  The plugin state is the
`bannedAuths` Map (auth string to array of conn strings), the `bannedConns`
Set of conn strings, and the `recentlyClearedBans` Set.
-/

/-- Global state of `sav/ban`. -/
structure BanState where
  bannedAuths : List (String × List String)
  bannedConns : List String
  recentlyClearedBans : List String
deriving Repr, DecidableEq

/-- JavaScript values occurring in the data `onPersistHandler` feeds to
`Object.fromEntries`: strings (Set elements) and arrays (Map entries and conn
arrays). -/
inductive JsValue where
  | str (s : String)
  | arr (l : List JsValue)
deriving Repr

/-- JS ToPropertyKey / ToString on the values above (arrays stringify by
joining their elements with commas). -/
def toPropertyKey : JsValue → String
  | JsValue.str s => s
  | JsValue.arr l =>
    String.intercalate "," (l.attach.map (fun x => toPropertyKey x.1))
decreasing_by
  have := List.sizeOf_lt_of_mem x.2
  simp only [JsValue.arr.sizeOf_spec]
  omega

/-- Left-to-right accumulation of `Object.fromEntries`.  Per
AddEntriesFromIterable, a TypeError is thrown as soon as an iterator value is
not an object: a string element (as produced by iterating a Set of strings)
throws; an array entry contributes key `entry[0]` and value `entry[1]`
(`none` when absent), later entries with the same key overwriting earlier
ones. -/
def addEntries (acc : List (String × Option JsValue)) :
    List JsValue → Except String (List (String × Option JsValue))
  | [] => Except.ok acc
  | JsValue.str s :: _ =>
    Except.error ("TypeError: Iterator value " ++ s ++
      " is not an entry object")
  | JsValue.arr a :: rest =>
    addEntries
      (putKV acc (toPropertyKey ((a.get? 0).getD (JsValue.str "undefined")))
        (a.get? 1))
      rest

/-- JS `Object.fromEntries` over a list of iterator values. -/
def jsObjectFromEntries (l : List JsValue) :
    Except String (List (String × Option JsValue)) :=
  addEntries [] l

/-- The iterator values produced by iterating the `bannedAuths` Map: each
entry is the array `[auth, conns]`. -/
def mapIterValues (m : List (String × List String)) : List JsValue :=
  m.map (fun e => JsValue.arr [JsValue.str e.1, JsValue.arr (e.2.map JsValue.str)])

/-- The iterator values produced by iterating the `bannedConns` Set: the conn
strings themselves. -/
def setIterValues (s : List String) : List JsValue := s.map JsValue.str

/-- The object `onPersistHandler` returns when it does not throw. -/
structure PersistedBans where
  bannedAuths : List (String × Option JsValue)
  bannedConns : List (String × Option JsValue)
deriving Repr

/-- Model of `onPersistHandler`: the object literal evaluates
`Object.fromEntries(bannedAuths)` first and `Object.fromEntries(bannedConns)`
second, each of which can throw. -/
def onPersistHandler (st : BanState) : Except String PersistedBans := do
  let auths ← jsObjectFromEntries (mapIterValues st.bannedAuths)
  let conns ← jsObjectFromEntries (setIterValues st.bannedConns)
  Except.ok { bannedAuths := auths, bannedConns := conns }

/-- Model of the `clearBan` extension of `sav/ban`, instrumented with a
Boolean reporting whether `previousFunction` was invoked.  The auth of the
target player (possibly absent) is the `authLookup` argument.  When the auth
is defined but not a key of `bannedAuths`, `bannedAuths.get(auth)` is
`undefined` and the `.forEach` call throws a TypeError before
`previousFunction` runs. -/
def clearBan (st : BanState) (authLookup : Option String) :
    Except String (BanState × Bool) :=
  match authLookup with
  | none => Except.ok (st, true)
  | some auth =>
    match lookupKV st.bannedAuths auth with
    | none =>
      Except.error "TypeError: cannot read forEach of undefined"
    | some conns =>
      Except.ok
        ({ bannedAuths := st.bannedAuths.filter (fun e => e.1 ≠ auth),
            bannedConns :=
              st.bannedConns.filter (fun c => c ∉ conns),
            recentlyClearedBans := jsSetAdd st.recentlyClearedBans auth },
          true)

end SavBan

namespace SavPlayers

/-!
Model of the `sav/players` plugin (`src/sav/players.js`): the four global
maps and the `onPlayerJoin` pre-event handler hook.  JS Dates are modelled as
a `now : Nat` timestamp argument.
-/

/-- Per-user data stored under `_pluginData[sav/players]` of a user record. -/
structure UserData where
  seen : Nat
  conns : List String
  ids : List Nat
  names : List String
deriving Repr, DecidableEq

/-- Per-player record stored in `playersById`; `online` is the
`_pluginData[sav/players].online` flag. -/
structure PlayerRecord where
  auth : String
  admin : Bool
  conn : String
  id : Nat
  name : String
  team : Int
  online : Bool
deriving Repr, DecidableEq

/-- The four global maps of the plugin. -/
structure PlayersState where
  userDataByAuth : List (String × UserData)
  idToAuth : List (Nat × String)
  playersByConn : List (String × List Nat)
  playersById : List (Nat × PlayerRecord)
deriving Repr, DecidableEq

/-- The host-provided player object passed to the join hook; `auth` is
`none` for a `null` auth. -/
structure JoinPlayer where
  id : Nat
  name : String
  team : Int
  admin : Bool
  auth : Option String
  conn : String
deriving Repr, DecidableEq

/-- Model of `createInitialPlayerObject` (the `online` flag starts true). -/
def createInitialPlayerObject (p : JoinPlayer) (auth : String) : PlayerRecord :=
  { auth := auth, admin := p.admin, conn := p.conn, id := p.id,
    name := p.name, team := p.team, online := true }

/-- Model of `createInitialUserdataObject`. -/
def createInitialUserdataObject (now : Nat) : UserData :=
  { seen := now, conns := [], ids := [], names := [] }

/-- The team coercion the native `setPlayerTeam` extension applies:
`team == 1 ? 1 : (team == 2 ? 2 : 0)`. -/
def coerceTeam (t : Int) : Int := if t = 1 then 1 else if t = 2 then 2 else 0

/-- Model of the `setPlayerTeam` extension body restricted to its effect on
`playersById`: `getPlayerById(playerId, {}).team = ...` writes into a
throwaway object when the record is missing, hence no state change then. -/
def setTeamOf (st : PlayersState) (pid : Nat) (team : Int) : PlayersState :=
  match lookupKV st.playersById pid with
  | none => st
  | some r =>
    { st with playersById := putKV st.playersById pid ({ r with team := coerceTeam team }) }

/-- Model of `checkGhosts(playerId)`: every older online player with the same
name and auth makes the new player take over its team (the ghost itself is
kicked through the host, which changes no map synchronously).  The iteration
order over `playersById` approximates the host's player-list order; no claim
depends on it. -/
def checkGhosts (st : PlayersState) (playerId : Nat) : PlayersState :=
  match lookupKV st.playersById playerId with
  | none => st
  | some pl =>
    let ghosts := st.playersById.filter
      (fun e => e.2.online ∧ e.2.id < playerId ∧ e.2.name = pl.name
        ∧ e.2.auth = pl.auth)
    ghosts.foldl (fun acc g => setTeamOf acc playerId g.2.team) st

/-- Model of `onPlayerJoinPreEventHandlerHook`.  Returns the updated state
and `false` exactly when the hook cancels the event (`null` auth, in which
case the player is kicked and no map is touched). -/
def onPlayerJoinPreEventHandlerHook (st : PlayersState) (now : Nat)
    (ghostKick : Bool) (p : JoinPlayer) : PlayersState × Bool :=
  match p.auth with
  | none => (st, false)
  | some auth =>
    let st1 :=
      match lookupKV st.userDataByAuth auth with
      | none =>
        { st with userDataByAuth := putKV st.userDataByAuth auth (createInitialUserdataObject now) }
      | some _ => st
    let st2 := { st1 with playersById := putKV st1.playersById p.id (createInitialPlayerObject p auth) }
    let st3 :=
      match lookupKV st2.userDataByAuth auth with
      | none => st2
      | some ud =>
        { st2 with
            userDataByAuth :=
              putKV st2.userDataByAuth auth
                ({ ud with
                    ids := jsSetAdd ud.ids p.id,
                    conns := jsSetAdd ud.conns p.conn,
                    names := jsSetAdd ud.names p.name,
                    seen := now }) }
    let st4 :=
      match lookupKV st3.playersByConn p.conn with
      | none =>
        { st3 with playersByConn := putKV st3.playersByConn p.conn (jsSetAdd [] p.id) }
      | some l =>
        { st3 with playersByConn := putKV st3.playersByConn p.conn (jsSetAdd l p.id) }
    let st5 := { st4 with idToAuth := putKV st4.idToAuth p.id auth }
    let st6 := if ghostKick then checkGhosts st5 p.id else st5
    (st6, true)

/-- Model of `onPlayerLeavePreEventHandlerHook`: refreshes the user's `seen`
timestamp and clears the player's `online` flag; a `null` player cancels the
event.  The unchanged-state branches of the lookups render the JS paths that
would throw on an unknown player, where no map changes either. -/
def onPlayerLeavePreEventHandlerHook (st : PlayersState) (now : Nat)
    (p : Option JoinPlayer) : PlayersState × Bool :=
  match p with
  | none => (st, false)
  | some pl =>
    let st1 :=
      match lookupKV st.idToAuth pl.id with
      | none => st
      | some auth =>
        match lookupKV st.userDataByAuth auth with
        | none => st
        | some ud =>
          { st with userDataByAuth := putKV st.userDataByAuth auth ({ ud with seen := now }) }
    let st2 :=
      match lookupKV st1.playersById pl.id with
      | none => st1
      | some r =>
        { st1 with playersById := putKV st1.playersById pl.id ({ r with online := false }) }
    (st2, true)

/-- The empty state of the plugin maps, used by concrete witnesses. -/
def emptyPlayersState : PlayersState :=
  { userDataByAuth := [], idToAuth := [], playersByConn := [], playersById := [] }

/-- A concrete joining player with a defined auth. -/
def joinBob : JoinPlayer :=
  { id := 1, name := "bob", team := 0, admin := false, auth := some "authB",
    conn := "connB" }

/-- Key uniqueness of the four maps (inherent in JS objects / Maps, made
explicit for the association-list embedding). -/
def WFPlayers (st : PlayersState) : Prop :=
  (keysOf st.userDataByAuth).Nodup ∧ (keysOf st.idToAuth).Nodup
    ∧ (keysOf st.playersByConn).Nodup ∧ (keysOf st.playersById).Nodup

end SavPlayers

namespace SavRoles

/-!
Model of the `sav/roles` plugin (`src/sav/roles.js`) for the player-id
(integer) call path with the `sav/players` data getters abstracted into a
state: `playerAuth` is the host's id-to-auth view used by
`determinePlayerIdAndAuth`, `playerRoles` and `userRoles` are the `roles`
fields of the per-player and per-user `sav/roles` plugin data (`none` when
the field is still undefined), and `events` logs `room.triggerEvent` names.
-/

/-- State of the roles plugin together with the host data it reads. -/
structure RolesState where
  playerAuth : List (Nat × String)
  playerRoles : List (Nat × Option (List String))
  userRoles : List (String × Option (List String))
  events : List String
deriving Repr, DecidableEq

/-- Roles of a player: entry missing or `roles` field undefined both read as
no set yet. -/
def playerRolesOf (st : RolesState) (pid : Nat) : Option (List String) :=
  (lookupKV st.playerRoles pid).bind id

/-- Roles of a user, looked up by auth. -/
def userRolesOf (st : RolesState) (auth : String) : Option (List String) :=
  (lookupKV st.userRoles auth).bind id

/-- Model of the integer branch of `determinePlayerIdAndAuth`: the auth of
the player, with a falsy auth (absent player or empty string) raising the
`Invalid player ID` error. -/
def determineAuth (st : RolesState) (pid : Nat) : Except String String :=
  match lookupKV st.playerAuth pid with
  | none => Except.error "Invalid player ID"
  | some auth => if auth = "" then Except.error "Invalid player ID" else Except.ok auth

/-- Model of `provideAuthenticationInfo(playerId, auth)`:
`data.roles = data.roles || new Set()` on the player and user data. -/
def provideAuthenticationInfo (st : RolesState) (playerId : Option Nat)
    (auth : String) : RolesState :=
  let st1 :=
    match playerId with
    | some pid =>
      { st with playerRoles := putKV st.playerRoles pid (some ((playerRolesOf st pid).getD [])) }
    | none => st
  { st1 with userRoles := putKV st1.userRoles auth (some ((userRolesOf st1 auth).getD [])) }

/-- Model of `addRole(roles, role)`: whether the set changed, and the set
after `Set.prototype.add`. -/
def addRole (roles : List String) (role : String) : Bool × List String :=
  if role ∈ roles then (false, roles) else (true, roles ++ [role])

/-- Model of `triggerAuthenticationEvents`; only the event names matter
here. -/
def triggerAuthenticationEvents (st : RolesState) (playerIdDefined : Bool)
    (role : String) (userRole added : Bool) : RolesState :=
  let addedString := if added then "Added" else "Removed"
  let st1 :=
    if playerIdDefined then
      { st with events := st.events ++
          ["onPlayerRole", "onPlayerRole_" ++ role,
            "onPlayerRole" ++ addedString,
            "onPlayerRole" ++ addedString ++ "_" ++ role] }
    else st
  if userRole then
    { st1 with events := st1.events ++
        ["onUserRole", "onUserRole_" ++ role, "onUserRole" ++ addedString,
          "onUserRole" ++ addedString ++ "_" ++ role] }
  else st1

/-- Model of `addPlayerRole(playerId, role, userRole)` on the integer call
path (the `!userRole && playerId === undefined` throw cannot fire there). -/
def addPlayerRole (st : RolesState) (pid : Nat) (role : String)
    (userRole : Bool) : Except String (RolesState × Bool) := do
  let auth ← determineAuth st pid
  let st1 := provideAuthenticationInfo st (some pid) auth
  let pr := (playerRolesOf st1 pid).getD []
  let changedPlayerRoles := (addRole pr role).1
  let st2 := { st1 with playerRoles := putKV st1.playerRoles pid (some (addRole pr role).2) }
  let step3 :=
    if userRole then
      let ur := (userRolesOf st2 auth).getD []
      ((addRole ur role).1,
        { st2 with userRoles := putKV st2.userRoles auth (some (addRole ur role).2) })
    else (false, st2)
  let rolesChanged := changedPlayerRoles || step3.1
  let st4 :=
    if rolesChanged then
      triggerAuthenticationEvents step3.2 true role userRole true
    else step3.2
  Except.ok (st4, rolesChanged)

/-- Model of `hasPlayerRole(playerId, role, userRole)` on the integer call
path. -/
def hasPlayerRole (st : RolesState) (pid : Nat) (role : String)
    (userRole : Bool) : Except String (RolesState × Bool) := do
  let auth ← determineAuth st pid
  let st1 := provideAuthenticationInfo st (some pid) auth
  if userRole then
    Except.ok (st1, ((userRolesOf st1 auth).getD []).contains role)
  else
    Except.ok (st1, ((playerRolesOf st1 pid).getD []).contains role)

/-- A concrete roles state with one known player, used by witnesses. -/
def rolesDemoState : RolesState :=
  { playerAuth := [(2, "authR")], playerRoles := [], userRoles := [],
    events := [] }

/-- Model of `removePlayerRole(playerId, role)` on the integer call path;
`Set.prototype.delete` reports whether the role was present. -/
def removePlayerRole (st : RolesState) (pid : Nat) (role : String) :
    Except String (RolesState × Bool) := do
  let auth ← determineAuth st pid
  let st1 := provideAuthenticationInfo st (some pid) auth
  let pr := (playerRolesOf st1 pid).getD []
  let hadPlayerRole := pr.contains role
  let st2 := { st1 with playerRoles := putKV st1.playerRoles pid (some (pr.filter (fun r => r ≠ role))) }
  let ur := (userRolesOf st2 auth).getD []
  let hadUserRole := ur.contains role
  let st3 := { st2 with userRoles := putKV st2.userRoles auth (some (ur.filter (fun r => r ≠ role))) }
  let hadRole := hadPlayerRole || hadUserRole
  let st4 :=
    if hadRole then triggerAuthenticationEvents st3 true role hadUserRole false
    else st3
  Except.ok (st4, hadRole)

end SavRoles

namespace SavCron

/-!
Model of the `sav/cron` plugin (`src/sav/cron.js`): game-time cron jobs.
`createGameTimeCronJob` parses the handler name and registers a closure over
a `tickCounter`; `onGameTickHandler` runs all game-tick jobs every
`gameTicks` invocations, counted by `globalTickCount`.
-/

/-- The `units` object of the source. -/
def units : List (String × Nat) := [("Seconds", 1), ("Minutes", 60), ("Hours", 3600)]

/-- JS `String.prototype.substr(start, length)` for the in-range uses of the
source (a negative JS length yields the empty string, as truncated Nat
subtraction does). -/
def jsSubstr (s : List Char) (start len : Nat) : List Char :=
  (s.drop start).take len

/-- Value of a digit string. -/
def digitsVal (l : List Char) : Nat :=
  l.foldl (fun n c => 10 * n + (c.toNat - 48)) 0

/-- JS `parseInt` restricted to the substrings the source feeds it: the
maximal leading digit run is parsed, no digits meaning NaN (`none`).  A
leading minus sign parses negative in JS; both sides then fail the
`time <= 0` test, so `none` is an equivalent rendering here. -/
def jsParseInt (s : List Char) : Option Nat :=
  let d := s.takeWhile (fun c => c.isDigit)
  if d.isEmpty then none else some (digitsVal d)

/-- Model of `createGameTimeCronJob(handlerName, unit)`: returns the
`numTicks` of the registered job closure, or `none` when no job is
registered (`NaN` or non-positive time).  `setupCronJobs` only calls this
with `unit` a key of `units`. -/
def createGameTimeCronJob (handlerName : List Char) (unit : String) : Option Nat :=
  match jsParseInt (jsSubstr handlerName 6 (handlerName.length - 10 - unit.length)) with
  | none => none
  | some time =>
    if time ≤ 0 then none
    else
      match lookupKV units unit with
      | none => none
      | some u => some (time * u * 60)

/-- One execution of a registered game-time job closure on its
`tickCounter`: `tickCounter = Math.min(tickCounter + gameTicks, numTicks) % numTicks`. -/
def tickStep (gameTicks numTicks tc : Nat) : Nat :=
  min (tc + gameTicks) numTicks % numTicks

/-- The `globalTickCount` update of `onGameTickHandler`:
`globalTickCount = Math.min(globalTickCount + 1, gameTicks) % gameTicks`. -/
def gtcStep (gameTicks g : Nat) : Nat := min (g + 1) gameTicks % gameTicks

/-- One invocation of `onGameTickHandler` on the pair
(`globalTickCount`, `tickCounter`) of one registered game-time job: the jobs
run exactly when `globalTickCount` is 0, and the job fires its event exactly
when its `tickCounter` is 0 at that run. -/
def onGameTickHandler (gameTicks numTicks : Nat) (st : Nat × Nat) :
    (Nat × Nat) × Bool :=
  if st.1 = 0 then
    ((gtcStep gameTicks st.1, tickStep gameTicks numTicks st.2), st.2 = 0)
  else ((gtcStep gameTicks st.1, st.2), false)

/-- State after `t` invocations of `onGameTickHandler`, starting from
`globalTickCount = 0` and `tickCounter = 1`, paired with whether the `t`-th
invocation fired the handler event. -/
def simFire (gameTicks numTicks : Nat) : Nat → ((Nat × Nat) × Bool)
  | 0 => ((0, 1), false)
  | t + 1 => onGameTickHandler gameTicks numTicks (simFire gameTicks numTicks t).1

/-- The ticks among `1..upTo` at which the handler event fires. -/
def fireTicks (gameTicks numTicks upTo : Nat) : List Nat :=
  (List.range upTo).filterMap
    (fun t => if (simFire gameTicks numTicks (t + 1)).2 then some (t + 1) else none)

end SavCron

namespace SavCommands

/-!
Model of the `sav/commands` plugin (`src/sav/help.js` in this snapshot):
`removeMultiCommandPrefix` and `parseMessage`.  JS strings are lists of
characters.
-/

/-- JS `String.prototype.trim` (whitespace at both ends removed). -/
def jsTrim (s : List Char) : List Char :=
  ((s.dropWhile Char.isWhitespace).reverse.dropWhile Char.isWhitespace).reverse

/-- Splitting scan for a non-empty separator `sep0 :: sepRest`: leftmost
separator occurrences delimit the components, `acc` holding the current
component reversed.  Each step consumes at least one character of the
message, so fuel equal to the message length is exact; the fuel-exhausted
arm is unreachable under that bound. -/
def splitAux (sep0 : Char) (sepRest : List Char) :
    Nat → List Char → List Char → List (List Char)
  | _, [], acc => [acc.reverse]
  | 0, m, acc => [acc.reverse ++ m]
  | fuel + 1, c :: cs, acc =>
    if (sep0 :: sepRest).isPrefixOf (c :: cs) then
      acc.reverse :: splitAux sep0 sepRest fuel (cs.drop sepRest.length) []
    else splitAux sep0 sepRest fuel cs (c :: acc)

/-- JS `String.prototype.split(separator)` without a limit; the empty
separator splits into single characters. -/
def jsSplitAll (m sep : List Char) : List (List Char) :=
  match sep with
  | [] => m.map (fun c => [c])
  | s0 :: srest => splitAux s0 srest m.length m []

/-- JS `String.prototype.split(separator, limit)`: the first `limit`
components of the full split. -/
def jsSplit (m sep : List Char) (limit : Nat) : List (List Char) :=
  (jsSplitAll m sep).take limit

/-- Fuelled rendering of the `while` loop of `removeMultiCommandPrefix`.
For a non-empty prefix every iteration shortens the message, so
`message.length + 1` fuel is exact; for the empty prefix the JS loop never
terminates (the theorems assume a non-empty prefix). -/
def removeMultiAux (cp : List Char) : Nat → List Char → List Char
  | 0, m => m
  | fuel + 1, m =>
    if (cp ++ cp).isPrefixOf m then removeMultiAux cp fuel (m.drop cp.length)
    else m

/-- Model of `removeMultiCommandPrefix(message, commandPrefix)`. -/
def removeMultiCommandPrefix (m cp : List Char) : List Char :=
  removeMultiAux cp (m.length + 1) m

/-- JS ToUint32, applied by `String.prototype.split` to its limit
argument. -/
def toUint32 (i : Int) : Nat := (i % 4294967296).toNat

/-- The object `parseMessage` returns; the early return carries no
`originalMessage` property (`none`). -/
structure ParsedMessage where
  command : List Char
  arguments : List (List Char)
  argumentString : List Char
  separator : List Char
  originalMessage : Option (List Char)
deriving Repr, DecidableEq

/-- Model of `parseMessage(message, numArgsMax, commandPrefix, separator)`.
`numArgsMax` and `separator` are `none` when the caller omits them
(`undefined`); the command prefix argument is explicit (the config default
is the string of one exclamation mark).  `parts.getD 0 []` renders the JS
access `parts[0]`, which can only be reached with a non-empty first part
when the prefix is non-empty and free of whitespace and separator
characters, as the theorems assume. -/
def parseMessage (message : List Char) (numArgsMax : Option Int)
    (commandPfx : List Char) (separator : Option (List Char)) : ParsedMessage :=
  let numArgsMax2 : Int := numArgsMax.getD (-2) + 1
  let sep := separator.getD [' ']
  let msg := removeMultiCommandPrefix message commandPfx
  if ¬ commandPfx.isPrefixOf msg ∨ msg.length < 2 then
    { command := [], arguments := [], argumentString := [],
      separator := sep, originalMessage := none }
  else
    let parts := ((jsSplit msg sep (toUint32 numArgsMax2)).map jsTrim).filter
      (fun a => a.length > 0)
    let argumentString :=
      if parts.length > 1 then (jsSplit msg sep 2).getD 1 [] else []
    let part0 := parts.getD 0 []
    let rest :=
      if part0.length > commandPfx.length + 1 then
        part0.drop (commandPfx.length + 1)
      else []
    let command :=
      match part0.get? commandPfx.length with
      | some c => c :: rest
      | none => "undefined".data ++ rest
    { command := command, arguments := parts.drop 1,
      argumentString := argumentString, separator := sep,
      originalMessage := some msg }

end SavCommands

/-! ## Concrete states used by counterexamples and witnesses -/

namespace SavTest

/-- The initial `roomState` object of the mock room source. -/
def initialRoomState : RoomState :=
  { password := none, gamePaused := false, gameStarted := false,
    recording := false, scoreLimit := 0, stadium := "Classic",
    timeLimit := 0, teamsLock := false }

/-- An online admin player with id 0. -/
def hostPlayer : Player :=
  { id := 0, name := "host", team := 0, admin := true, position := none,
    auth := "hostAuth", conn := "hostConn" }

/-- A mock-room state with a started and paused game and one online admin:
reachable by adding an admin and starting then pausing the game. -/
def pausedState : MockState :=
  { apiOverrideActive := true, noPlayer := false,
    roomState := { initialRoomState with gameStarted := true, gamePaused := true },
    players := [hostPlayer], playersOnline := [0], bannedConns := [],
    events := [] }

/-- A mock-room state with the api override active (as after
`activateApiOverride`). -/
def overrideOnState : MockState :=
  { apiOverrideActive := true, noPlayer := false,
    roomState := initialRoomState,
    players := [hostPlayer], playersOnline := [0],
    bannedConns := ["hostConn"], events := [] }

/-- The same state before `activateApiOverride` has run. -/
def overrideOffState : MockState :=
  { overrideOnState with apiOverrideActive := false }

/-- The validation rules of claim C1 for `actorChangePlayerTeam`: the team id
is one of 0, 1, 2; the target player is online and their current team
differs from the requested one; the acting player is online; and the acting
player is an admin, or is the target themself while the teams are not locked
and the game is not started. -/
def teamChangeAllowed (s : MockState) (playerIdBy : Nat) (team : Int)
    (playerIdChanged : Nat) : Prop :=
  team ∈ teamIds ∧ playerIdChanged ∈ s.playersOnline
    ∧ playerIdBy ∈ s.playersOnline
    ∧ (∃ pCh, s.players.get? playerIdChanged = some pCh ∧ pCh.team ≠ team)
    ∧ (∃ pBy, s.players.get? playerIdBy = some pBy ∧
        (pBy.admin = true
          ∨ (playerIdChanged = playerIdBy ∧ s.roomState.teamsLock = false
            ∧ s.roomState.gameStarted = false)))

end SavTest

/-! ## Association-list helper lemmas -/

theorem lookupKV_putKV_self {κ α : Type} [DecidableEq κ]
    (l : List (κ × α)) (k : κ) (v : α) :
    lookupKV (putKV l k v) k = some v := by
  induction l with
  | nil => simp [putKV, lookupKV]
  | cons e t ih =>
    obtain ⟨k0, w⟩ := e
    by_cases h : k0 = k
    · simp [putKV, h, lookupKV]
    · simpa [putKV, h, lookupKV] using ih

theorem lookupKV_putKV_ne {κ α : Type} [DecidableEq κ]
    (l : List (κ × α)) (k k2 : κ) (v : α) (h : k2 ≠ k) :
    lookupKV (putKV l k v) k2 = lookupKV l k2 := by
  induction l with
  | nil => simp [putKV, lookupKV, Ne.symm h]
  | cons e t ih =>
    obtain ⟨k0, w⟩ := e
    by_cases he : k0 = k
    · subst he
      simp [putKV, lookupKV, Ne.symm h]
    · by_cases h2 : k0 = k2
      · simp [putKV, he, lookupKV, h2, h]
      · simpa [putKV, he, lookupKV, h2] using ih

theorem keysOf_putKV {κ α : Type} [DecidableEq κ]
    (l : List (κ × α)) (k : κ) (v : α) :
    keysOf (putKV l k v) =
      if k ∈ keysOf l then keysOf l else keysOf l ++ [k] := by
  induction l with
  | nil => simp [putKV, keysOf]
  | cons e t ih =>
    obtain ⟨k0, w⟩ := e
    by_cases he : k0 = k
    · simp [putKV, he, keysOf]
    · by_cases hm : k ∈ keysOf t
      · simp only [putKV, if_neg he, keysOf, List.map_cons] at ih ⊢
        simp only [keysOf] at hm
        simp [hm, ih, Ne.symm he]
      · simp only [putKV, if_neg he, keysOf, List.map_cons] at ih ⊢
        simp only [keysOf] at hm
        simp [hm, ih, Ne.symm he]

theorem nodup_keysOf_putKV {κ α : Type} [DecidableEq κ]
    (l : List (κ × α)) (k : κ) (v : α) (h : (keysOf l).Nodup) :
    (keysOf (putKV l k v)).Nodup := by
  rw [keysOf_putKV]
  split
  · exact h
  · next hk => simpa [List.nodup_append] using ⟨h, hk⟩

theorem mem_keysOf_putKV {κ α : Type} [DecidableEq κ]
    (l : List (κ × α)) (k k2 : κ) (v : α) :
    (k2 ∈ keysOf (putKV l k v)) ↔ (k2 ∈ keysOf l ∨ k2 = k) := by
  rw [keysOf_putKV]
  split
  · next hk =>
    constructor
    · exact fun h => Or.inl h
    · rintro (h | rfl)
      · exact h
      · exact hk
  · simp

theorem filter_key_of_lookup {κ α : Type} [DecidableEq κ]
    (l : List (κ × α)) (k : κ) (v : α) (hnd : (keysOf l).Nodup)
    (hl : lookupKV l k = some v) :
    l.filter (fun e => e.1 = k) = [(k, v)] := by
  induction l with
  | nil => simp [lookupKV] at hl
  | cons e t ih =>
    obtain ⟨k0, w⟩ := e
    have hnd2 : (keysOf t).Nodup := by
      simpa [keysOf] using (by simpa [keysOf] using hnd : (k0 :: keysOf t).Nodup).of_cons
    by_cases he : k0 = k
    · subst he
      simp only [lookupKV, if_pos] at hl
      have hknot : k0 ∉ keysOf t := by
        have : (k0 :: keysOf t).Nodup := by simpa [keysOf] using hnd
        exact (List.nodup_cons.mp this).1
      have hfil : t.filter (fun e => e.1 = k0) = [] := by
        rw [List.filter_eq_nil_iff]
        intro a ha
        simp only [decide_eq_true_eq]
        intro hak
        exact hknot (by
          have := List.mem_map_of_mem Prod.fst ha
          simpa [keysOf, hak] using this)
      obtain rfl : w = v := by simpa using hl
      simp [List.filter, hfil]
    · simp only [lookupKV, if_neg he] at hl
      have := ih hnd2 hl
      simp [List.filter, he, this]

/-! ## Claim C5: persistence of sav/ban state -/

/-- Claim C5 (code_bug evidence): the claim says persisting through
`onPersistHandler` and restoring through `onRestoreHandler` preserves the
banned auths and conns for every reachable ban state.  In fact
`onPersistHandler` applies `Object.fromEntries` to the `bannedConns` Set of
conn strings, which throws a TypeError as soon as the set is non-empty, so
no state with at least one banned conn can be persisted at all (while the
same state with no banned conns persists fine, and the auth map serializes
correctly). -/
theorem savBan_onPersistHandler_throws_on_any_banned_conn :
    SavBan.onPersistHandler
        { bannedAuths := [("authA", ["connA"])], bannedConns := ["connA"],
          recentlyClearedBans := [] }
      = Except.error "TypeError: Iterator value connA is not an entry object"
    ∧ SavBan.onPersistHandler
        { bannedAuths := [("authA", ["connA"])], bannedConns := [],
          recentlyClearedBans := [] }
      = Except.ok
          { bannedAuths :=
              [("authA", some (SavBan.JsValue.arr [SavBan.JsValue.str "connA"]))],
            bannedConns := [] } := by
  constructor
  · simp [SavBan.onPersistHandler, SavBan.jsObjectFromEntries, SavBan.addEntries,
      SavBan.mapIterValues, SavBan.setIterValues, SavBan.toPropertyKey, putKV,
      Bind.bind, Except.bind]
  · simp [SavBan.onPersistHandler, SavBan.jsObjectFromEntries, SavBan.addEntries,
      SavBan.mapIterValues, SavBan.setIterValues, SavBan.toPropertyKey, putKV,
      Bind.bind, Except.bind]

/-! ## Claim C4: chaining of room.extend extensions -/

/-- Claim C4 (counterexample): the claim says every extension registered
with `room.extend` by a plugin of this repository invokes the
`previousFunction` it receives.  The `sav/test` extension `apiClearBan`,
once the api override is active, performs its mock bookkeeping and never
calls `previousFunction`: at the concrete override-active state it reports
the previous function as not invoked. -/
theorem apiClearBan_skips_previousFunction :
    (SavTest.apiClearBan SavTest.overrideOnState 0).2 = false := by
  decide

/-- Claim C4 (amended): not every extension chains, and the chaining
behaviour differs per extension.  `sav/test`'s `apiClearBan` invokes
`previousFunction` exactly when the api override is inactive (while active
it replaces the native implementation without chaining); `sav/test`'s
`apiReorderPlayers` never invokes `previousFunction` at all, whatever the
override state; `sav/ban`'s `clearBan` invokes `previousFunction` whenever
it returns normally (its only other behaviour is throwing a TypeError when
the target player's auth is defined but not a key of `bannedAuths`). -/
theorem extension_chaining_amended :
    (∀ (s : SavTest.MockState) (pid : Nat), s.apiOverrideActive = false →
      (SavTest.apiClearBan s pid).2 = true)
    ∧ (∀ (s : SavTest.MockState) (pid : Nat), s.apiOverrideActive = true →
      (SavTest.apiClearBan s pid).2 = false)
    ∧ (∀ (s : SavTest.MockState) (l : List Nat) (moveToTop : Bool),
      (SavTest.apiReorderPlayers s l moveToTop).2 = false)
    ∧ (∀ (st : SavBan.BanState) (a : Option String)
        (st2 : SavBan.BanState) (b : Bool),
        SavBan.clearBan st a = Except.ok (st2, b) → b = true) := by
  refine ⟨?_, ?_, ?_, ?_⟩
  · intro s pid h
    simp [SavTest.apiClearBan, h]
  · intro s pid h
    simp only [SavTest.apiClearBan, h]
    cases s.players.get? pid <;> simp
  · intro s l moveToTop
    rfl
  · intro st a st2 b h
    cases a with
    | none =>
      simp only [SavBan.clearBan, Except.ok.injEq, Prod.mk.injEq] at h
      exact h.2.symm
    | some auth =>
      cases hl : lookupKV st.bannedAuths auth with
      | none => simp [SavBan.clearBan, hl] at h
      | some conns =>
        simp only [SavBan.clearBan, hl, Except.ok.injEq, Prod.mk.injEq] at h
        exact h.2.symm

/-- Witness for the amended C4 theorem at concrete inputs; the
`apiReorderPlayers` instance is taken with the override inactive, where the
extension still does not chain. -/
theorem extension_chaining_amended_witness :
    (SavTest.apiClearBan SavTest.overrideOffState 0).2 = true
    ∧ (SavTest.apiClearBan SavTest.overrideOnState 5).2 = false
    ∧ (SavTest.apiReorderPlayers SavTest.overrideOffState [0] true).2 = false
    ∧ true = true := by
  refine ⟨extension_chaining_amended.1 SavTest.overrideOffState 0 rfl,
    extension_chaining_amended.2.1 SavTest.overrideOnState 5 rfl,
    extension_chaining_amended.2.2.1 SavTest.overrideOffState [0] true, rfl⟩

/-! ## Claim C3: the gamePaused-implies-gameStarted invariant -/

/-- Claim C3 (counterexample): the claim says the invariant
`gamePaused implies gameStarted` is preserved by every listed operation,
`actorStartStopGame` included, and that starting or stopping resets
`gamePaused` to false.  At a reachable state with the game started and
paused and an online admin, `actorStartStopGame` stops the game but leaves
`gamePaused` true, breaking the invariant. -/
theorem actorStartStopGame_breaks_pause_invariant :
    (SavTest.pausedState.roomState.gamePaused = true
      → SavTest.pausedState.roomState.gameStarted = true)
    ∧ (SavTest.actorStartStopGame SavTest.pausedState 0).roomState.gameStarted = false
    ∧ (SavTest.actorStartStopGame SavTest.pausedState 0).roomState.gamePaused = true := by
  decide

/-- Claim C3 (amended): the invariant `gamePaused implies gameStarted` is
preserved by `apiStartGame`, `apiStopGame`, `apiPauseGame` and
`actorToggleGamePause` (but not by `actorStartStopGame`, which toggles
`gameStarted` without touching `gamePaused`); `apiStartGame` resets
`gamePaused` to false whenever it starts the game and `apiStopGame` leaves
it false in every case; pausing when the game is not started leaves the
whole state unchanged and triggers no event. -/
theorem gamePaused_invariant_amended (s : SavTest.MockState)
    (hinv : s.roomState.gamePaused = true → s.roomState.gameStarted = true) :
    ((SavTest.apiStartGame s).roomState.gamePaused = true
      → (SavTest.apiStartGame s).roomState.gameStarted = true)
    ∧ ((SavTest.apiStopGame s).roomState.gamePaused = true
      → (SavTest.apiStopGame s).roomState.gameStarted = true)
    ∧ (∀ b : Bool, (SavTest.apiPauseGame s b).roomState.gamePaused = true
      → (SavTest.apiPauseGame s b).roomState.gameStarted = true)
    ∧ (∀ pid : Nat, (SavTest.actorToggleGamePause s pid).roomState.gamePaused = true
      → (SavTest.actorToggleGamePause s pid).roomState.gameStarted = true)
    ∧ (s.roomState.gameStarted = false
      → (SavTest.apiStartGame s).roomState.gamePaused = false)
    ∧ (SavTest.apiStopGame s).roomState.gamePaused = false
    ∧ (∀ b : Bool, s.roomState.gameStarted = false → SavTest.apiPauseGame s b = s)
    ∧ (∀ pid : Nat, s.roomState.gameStarted = false
      → SavTest.actorToggleGamePause s pid = s) := by
  refine ⟨?_, ?_, ?_, ?_, ?_, ?_, ?_, ?_⟩
  · intro h
    by_cases hs : s.roomState.gameStarted <;>
      simp_all [SavTest.apiStartGame]
  · intro h
    by_cases hs : s.roomState.gameStarted <;>
      simp_all [SavTest.apiStopGame]
  · intro b h
    by_cases hs : s.roomState.gameStarted
    · simp only [SavTest.apiPauseGame, hs, if_true] at h ⊢
      split at h <;> simp_all
    · simp_all [SavTest.apiPauseGame]
  · intro pid h
    by_cases hs : s.roomState.gameStarted
    · by_cases hon : pid ∈ s.playersOnline
      · cases hp : s.players[pid]? with
        | none => simp [SavTest.actorToggleGamePause, hs, hon, hp]
        | some p =>
          by_cases ha : p.admin <;>
            simp [SavTest.actorToggleGamePause, hs, hon, hp, ha]
      · simp [SavTest.actorToggleGamePause, hs, hon]
    · simp only [SavTest.actorToggleGamePause, hs, Bool.not_eq_true,
        not_false_eq_true, if_true] at h ⊢
      exact absurd (hinv h) (by simpa using hs)
  · intro hs
    simp [SavTest.apiStartGame, hs]
  · by_cases hs : s.roomState.gameStarted
    · simp [SavTest.apiStopGame, hs]
    · simp only [SavTest.apiStopGame, hs, if_neg]
      simp only [Bool.not_eq_true] at hs
      by_cases hp : s.roomState.gamePaused
      · exact absurd (hinv hp) (by simp [hs])
      · simpa using hp
  · intro b hs
    simp [SavTest.apiPauseGame, hs]
  · intro pid hs
    simp [SavTest.actorToggleGamePause, hs]

/-- Witness for the amended C3 theorem at a concrete state. -/
theorem gamePaused_invariant_amended_witness :
    (SavTest.apiStopGame SavTest.overrideOnState).roomState.gamePaused = false
    ∧ SavTest.apiPauseGame SavTest.overrideOnState true = SavTest.overrideOnState := by
  have h := gamePaused_invariant_amended SavTest.overrideOnState (by decide)
  exact ⟨h.2.2.2.2.2.1, h.2.2.2.2.2.2.1 true (by decide)⟩

/-! ## Claim C2: actorAddPlayer -/

/-- Claim C2: `actorAddPlayer(name, options)` returns `null` and leaves the
whole state (players, playersOnline, bans, roomState, events) unchanged
exactly when the supplied room password differs from `roomState.password` or
the supplied conn is banned; otherwise it appends a player whose id is the
previous length of the players array with team 0, no admin and `null`
position, adds that id to `playersOnline`, triggers `onPlayerJoin` with a
copy of the player, and returns that copy. -/
theorem actorAddPlayer_spec (s : SavTest.MockState) (name auth conn : String)
    (roomPassword : Option String) :
    (s.roomState.password ≠ roomPassword ∨ conn ∈ s.bannedConns →
      SavTest.actorAddPlayer s name auth conn roomPassword = (s, none))
    ∧ (s.roomState.password = roomPassword ∧ conn ∉ s.bannedConns →
      SavTest.actorAddPlayer s name auth conn roomPassword =
        ({ s with
            players := s.players ++
              [⟨s.players.length, name, 0, false, none, auth, conn⟩],
            playersOnline := jsSetAdd s.playersOnline s.players.length,
            events := s.events ++
              [SavTest.MockEvent.playerJoin
                ⟨s.players.length, name, 0, false, none, auth, conn⟩] },
          some ⟨s.players.length, name, 0, false, none, auth, conn⟩)) := by
  constructor
  · rintro (h | h)
    · simp [SavTest.actorAddPlayer, h]
    · by_cases hp : s.roomState.password = roomPassword <;>
        simp [SavTest.actorAddPlayer, hp, h]
  · rintro ⟨hp, hc⟩
    simp [SavTest.actorAddPlayer, hp, hc]

/-- Witness for the C2 theorem at concrete inputs: joining with the right
(absent) password and a fresh conn succeeds; joining with a banned conn is
rejected without any state change. -/
theorem actorAddPlayer_spec_witness :
    SavTest.actorAddPlayer SavTest.overrideOnState "eve" "authE" "hostConn" none
      = (SavTest.overrideOnState, none)
    ∧ SavTest.actorAddPlayer SavTest.overrideOnState "bob" "authB" "connB" none
      = ({ SavTest.overrideOnState with
            players := SavTest.overrideOnState.players ++
              [⟨1, "bob", 0, false, none, "authB", "connB"⟩],
            playersOnline := jsSetAdd SavTest.overrideOnState.playersOnline 1,
            events := [SavTest.MockEvent.playerJoin
              ⟨1, "bob", 0, false, none, "authB", "connB"⟩] },
          some ⟨1, "bob", 0, false, none, "authB", "connB"⟩) :=
  ⟨(actorAddPlayer_spec SavTest.overrideOnState "eve" "authE" "hostConn" none).1
      (Or.inr (by decide)),
    (actorAddPlayer_spec SavTest.overrideOnState "bob" "authB" "connB" none).2
      ⟨rfl, by decide⟩⟩

/-! ## Claim C1: actorChangePlayerTeam -/

/-- Claim C1: in the mock room, `actorChangePlayerTeam` moves the target
player to the requested team and triggers `onPlayerTeamChange` exactly when
all validation rules of `teamChangeAllowed` hold; in every other case the
whole state (players, playersOnline, roomState, events) is left unchanged
and no event is triggered.  The well-formedness hypothesis restricts the
statement to states where online ids have player records, the only states
the JS code runs on without throwing. -/
theorem actorChangePlayerTeam_spec (s : SavTest.MockState)
    (playerIdBy playerIdChanged : Nat) (team : Int)
    (hwf : SavTest.WFState s) :
    (SavTest.teamChangeAllowed s playerIdBy team playerIdChanged →
      ∃ pCh pBy, s.players.get? playerIdChanged = some pCh
        ∧ s.players.get? playerIdBy = some pBy
        ∧ SavTest.actorChangePlayerTeam s playerIdBy team playerIdChanged =
          { s with
              players := s.players.set playerIdChanged { pCh with team := team },
              playersOnline :=
                jsSetAdd (jsSetDelete s.playersOnline playerIdChanged).2
                  playerIdChanged,
              events := s.events ++
                [SavTest.MockEvent.playerTeamChange { pCh with team := team }
                  (if playerIdBy = playerIdChanged then { pCh with team := team }
                    else pBy) team] })
    ∧ (¬ SavTest.teamChangeAllowed s playerIdBy team playerIdChanged →
      SavTest.actorChangePlayerTeam s playerIdBy team playerIdChanged = s) := by
  constructor
  · rintro ⟨h1, h2, h3, ⟨pCh, hCh, hteam⟩, ⟨pBy, hBy, hperm⟩⟩
    refine ⟨pCh, pBy, hCh, hBy, ?_⟩
    unfold SavTest.actorChangePlayerTeam
    rw [if_neg (by simpa using h1), if_neg (by simpa using h2)]
    simp only [hCh]
    rw [if_neg hteam, if_neg (by simpa using h3)]
    simp only [hBy]
    rcases hperm with hadm | ⟨heq, hlock, hstart⟩
    · rw [if_neg (by simp [hadm]), if_neg (by simp [hadm]),
        if_neg (by simp [hadm])]
    · rw [if_neg (by simp [heq]), if_neg (by simp [hlock]),
        if_neg (by simp [hstart])]
  · intro hna
    unfold SavTest.actorChangePlayerTeam
    by_cases h1 : team ∈ SavTest.teamIds
    swap
    · rw [if_pos (by simpa using h1)]
    rw [if_neg (by simpa using h1)]
    by_cases h2 : playerIdChanged ∈ s.playersOnline
    swap
    · rw [if_pos (by simpa using h2)]
    rw [if_neg (by simpa using h2)]
    cases hCh : s.players.get? playerIdChanged with
    | none => simp only [hCh]
    | some pCh =>
      simp only [hCh]
      by_cases hteam : pCh.team = team
      · rw [if_pos hteam]
      rw [if_neg hteam]
      by_cases h3 : playerIdBy ∈ s.playersOnline
      swap
      · rw [if_pos (by simpa using h3)]
      rw [if_neg (by simpa using h3)]
      cases hBy : s.players.get? playerIdBy with
      | none => simp only [hBy]
      | some pBy =>
        simp only [hBy]
        by_cases hadm : pBy.admin = true
        · exact absurd ⟨h1, h2, h3, ⟨pCh, hCh, hteam⟩, ⟨pBy, hBy, Or.inl hadm⟩⟩ hna
        by_cases hne : playerIdChanged = playerIdBy
        swap
        · rw [if_pos (by simp [hadm, hne])]
        by_cases hlock : s.roomState.teamsLock = true
        · rw [if_neg (by simp [hadm, hne]), if_pos (by simp [hadm, hlock])]
        by_cases hstart : s.roomState.gameStarted = true
        · rw [if_neg (by simp [hadm, hne]), if_neg (by simp [hadm, hlock]),
            if_pos (by simp [hadm, hstart])]
        · exact absurd ⟨h1, h2, h3, ⟨pCh, hCh, hteam⟩,
            ⟨pBy, hBy, Or.inr ⟨hne, by simpa using hlock, by simpa using hstart⟩⟩⟩ hna

/-- Witness for the C1 theorem: at the concrete paused state, moving an
unknown offline player changes nothing. -/
theorem actorChangePlayerTeam_spec_witness :
    SavTest.actorChangePlayerTeam SavTest.pausedState 0 1 7 = SavTest.pausedState :=
  (actorChangePlayerTeam_spec SavTest.pausedState 0 7 1 (by decide)).2
    (fun h => by exact absurd h.2.1 (by decide))

/-! ## Claim C6: sav/players map consistency -/

theorem mem_jsSetAdd_self {α : Type} [DecidableEq α] (s : List α) (x : α) :
    x ∈ jsSetAdd s x := by
  unfold jsSetAdd
  split
  · assumption
  · simp

theorem mem_keysOf_of_lookup {κ α : Type} [DecidableEq κ]
    {l : List (κ × α)} {k : κ} {v : α} (hl : lookupKV l k = some v) :
    k ∈ keysOf l := by
  induction l with
  | nil => simp [lookupKV] at hl
  | cons e t ih =>
    obtain ⟨k0, w⟩ := e
    by_cases h : k0 = k
    · simp [keysOf, h]
    · simp only [lookupKV, if_neg h] at hl
      simpa [keysOf] using Or.inr (by simpa [keysOf] using ih hl)

theorem countKey_eq_count_keysOf {κ α : Type} [DecidableEq κ]
    (l : List (κ × α)) (k : κ) :
    (l.filter (fun e => e.1 = k)).length = (keysOf l).count k := by
  induction l with
  | nil => simp [keysOf]
  | cons e t ih =>
    by_cases h : e.1 = k
    · simp [List.filter, h, keysOf, List.count_cons, ih]
    · simp [List.filter, h, keysOf, List.count_cons, ih]

theorem count_keysOf_putKV_self {κ α : Type} [DecidableEq κ]
    (l : List (κ × α)) (k : κ) (v : α) (h : (keysOf l).Nodup) :
    (keysOf (putKV l k v)).count k = 1 := by
  rw [keysOf_putKV]
  split
  · next hk => exact List.count_eq_one_of_mem h hk
  · next hk =>
    rw [List.count_append]
    simp [List.count_eq_zero_of_not_mem hk]

theorem setTeamOf_preserves (st : SavPlayers.PlayersState) (pid : Nat) (t : Int) :
    (SavPlayers.setTeamOf st pid t).userDataByAuth = st.userDataByAuth
    ∧ (SavPlayers.setTeamOf st pid t).idToAuth = st.idToAuth
    ∧ (SavPlayers.setTeamOf st pid t).playersByConn = st.playersByConn
    ∧ keysOf (SavPlayers.setTeamOf st pid t).playersById = keysOf st.playersById := by
  unfold SavPlayers.setTeamOf
  cases hl : lookupKV st.playersById pid with
  | none => exact ⟨rfl, rfl, rfl, rfl⟩
  | some r =>
    refine ⟨rfl, rfl, rfl, ?_⟩
    simp only
    rw [keysOf_putKV, if_pos (mem_keysOf_of_lookup hl)]

theorem foldl_setTeamOf_preserves  (gs : List (Nat × SavPlayers.PlayerRecord))
    (pid : Nat) (acc : SavPlayers.PlayersState) :
    (gs.foldl (fun a g => SavPlayers.setTeamOf a pid g.2.team) acc).userDataByAuth
        = acc.userDataByAuth
    ∧ (gs.foldl (fun a g => SavPlayers.setTeamOf a pid g.2.team) acc).idToAuth
        = acc.idToAuth
    ∧ (gs.foldl (fun a g => SavPlayers.setTeamOf a pid g.2.team) acc).playersByConn
        = acc.playersByConn
    ∧ keysOf (gs.foldl (fun a g => SavPlayers.setTeamOf a pid g.2.team) acc).playersById
        = keysOf acc.playersById := by
  induction gs generalizing acc with
  | nil => exact ⟨rfl, rfl, rfl, rfl⟩
  | cons g gs ih =>
    simp only [List.foldl_cons]
    obtain ⟨h1, h2, h3, h4⟩ := ih (SavPlayers.setTeamOf acc pid g.2.team)
    obtain ⟨g1, g2, g3, g4⟩ := setTeamOf_preserves acc pid g.2.team
    exact ⟨h1.trans g1, h2.trans g2, h3.trans g3, h4.trans g4⟩

theorem checkGhosts_preserves (st : SavPlayers.PlayersState) (pid : Nat) :
    (SavPlayers.checkGhosts st pid).userDataByAuth = st.userDataByAuth
    ∧ (SavPlayers.checkGhosts st pid).idToAuth = st.idToAuth
    ∧ (SavPlayers.checkGhosts st pid).playersByConn = st.playersByConn
    ∧ keysOf (SavPlayers.checkGhosts st pid).playersById = keysOf st.playersById := by
  unfold SavPlayers.checkGhosts
  cases hl : lookupKV st.playersById pid with
  | none => exact ⟨rfl, rfl, rfl, rfl⟩
  | some pl => exact foldl_setTeamOf_preserves _ pid st


/-- Helper: the `onPlayerLeave` pre-event handler hook of `sav/players`
never changes `idToAuth`. -/
theorem leave_hook_idToAuth (st2 : SavPlayers.PlayersState)
    (q : Option SavPlayers.JoinPlayer) (now2 : Nat) :
    (SavPlayers.onPlayerLeavePreEventHandlerHook st2 now2 q).1.idToAuth
      = st2.idToAuth := by
  cases q with
  | none => rfl
  | some pl =>
    unfold SavPlayers.onPlayerLeavePreEventHandlerHook
    dsimp only
    repeat' split
    all_goals rfl


/-- Claim C6: after the `onPlayerJoin` pre-event handler hook of
`sav/players` completes for a player with non-null auth, `idToAuth` maps the
player id to exactly that auth, `playersById` holds exactly one record for
the id, `userDataByAuth` holds a user record for the auth whose `ids` set
contains the id, `playersByConn` for the player conn contains the id, key
uniqueness of all four maps is preserved (so no id is ever mapped to two
auths at once), and the `onPlayerLeave` hook never touches `idToAuth`. -/
theorem onPlayerJoinHook_consistency (st : SavPlayers.PlayersState)
    (now : Nat) (ghostKick : Bool) (p : SavPlayers.JoinPlayer) (auth : String)
    (hwf : SavPlayers.WFPlayers st) (hauth : p.auth = some auth) :
    (SavPlayers.onPlayerJoinPreEventHandlerHook st now ghostKick p).2 = true
    ∧ lookupKV (SavPlayers.onPlayerJoinPreEventHandlerHook st now ghostKick p).1.idToAuth
        p.id = some auth
    ∧ ((SavPlayers.onPlayerJoinPreEventHandlerHook st now ghostKick p).1.playersById.filter
        (fun e => e.1 = p.id)).length = 1
    ∧ (∃ ud, lookupKV
        (SavPlayers.onPlayerJoinPreEventHandlerHook st now ghostKick p).1.userDataByAuth
        auth = some ud ∧ p.id ∈ ud.ids)
    ∧ (∃ conns, lookupKV
        (SavPlayers.onPlayerJoinPreEventHandlerHook st now ghostKick p).1.playersByConn
        p.conn = some conns ∧ p.id ∈ conns)
    ∧ SavPlayers.WFPlayers
        (SavPlayers.onPlayerJoinPreEventHandlerHook st now ghostKick p).1
    ∧ (∀ (q : Option SavPlayers.JoinPlayer) (now2 : Nat),
        (SavPlayers.onPlayerLeavePreEventHandlerHook
          (SavPlayers.onPlayerJoinPreEventHandlerHook st now ghostKick p).1 now2 q).1.idToAuth
        = (SavPlayers.onPlayerJoinPreEventHandlerHook st now ghostKick p).1.idToAuth) := by
  obtain ⟨hwu, hwi, hwc, hwp⟩ := hwf
  have ifGhost : ∀ (X : SavPlayers.PlayersState),
      ((if ghostKick then SavPlayers.checkGhosts X p.id else X).userDataByAuth
        = X.userDataByAuth)
      ∧ ((if ghostKick then SavPlayers.checkGhosts X p.id else X).idToAuth = X.idToAuth)
      ∧ ((if ghostKick then SavPlayers.checkGhosts X p.id else X).playersByConn
        = X.playersByConn)
      ∧ keysOf (if ghostKick then SavPlayers.checkGhosts X p.id else X).playersById
        = keysOf X.playersById := by
    intro X
    by_cases hg : ghostKick
    · simpa [hg] using checkGhosts_preserves X p.id
    · simp [hg]
  unfold SavPlayers.onPlayerJoinPreEventHandlerHook
  rw [hauth]
  dsimp only
  cases hu : lookupKV st.userDataByAuth auth with
  | none =>
    simp only [hu, lookupKV_putKV_self]
    cases hc : lookupKV st.playersByConn p.conn with
    | none =>
      simp only [hc]
      obtain ⟨e1, e2, e3, e4⟩ := ifGhost _
      refine ⟨trivial, ?_, ?_, ?_, ?_, ⟨?_, ?_, ?_, ?_⟩, ?_⟩
      · rw [e2]; exact lookupKV_putKV_self _ _ _
      · rw [countKey_eq_count_keysOf, e4]
        exact count_keysOf_putKV_self _ _ _ hwp
      · rw [e1]
        exact ⟨_, lookupKV_putKV_self _ _ _, by first | exact mem_jsSetAdd_self _ _ | (dsimp only; exact mem_jsSetAdd_self _ _)⟩
      · rw [e3]
        exact ⟨_, lookupKV_putKV_self _ _ _, by first | exact mem_jsSetAdd_self _ _ | (dsimp only; exact mem_jsSetAdd_self _ _)⟩
      · rw [e1]
        first
        | exact nodup_keysOf_putKV _ _ _ (nodup_keysOf_putKV _ _ _ hwu)
        | exact nodup_keysOf_putKV _ _ _ hwu
      · rw [e2]; exact nodup_keysOf_putKV _ _ _ hwi
      · rw [e3]; exact nodup_keysOf_putKV _ _ _ hwc
      · rw [e4]; exact nodup_keysOf_putKV _ _ _ hwp
      · intro q now2
        exact leave_hook_idToAuth _ q now2
    | some l =>
      simp only [hc]
      obtain ⟨e1, e2, e3, e4⟩ := ifGhost _
      refine ⟨trivial, ?_, ?_, ?_, ?_, ⟨?_, ?_, ?_, ?_⟩, ?_⟩
      · rw [e2]; exact lookupKV_putKV_self _ _ _
      · rw [countKey_eq_count_keysOf, e4]
        exact count_keysOf_putKV_self _ _ _ hwp
      · rw [e1]
        exact ⟨_, lookupKV_putKV_self _ _ _, by first | exact mem_jsSetAdd_self _ _ | (dsimp only; exact mem_jsSetAdd_self _ _)⟩
      · rw [e3]
        exact ⟨_, lookupKV_putKV_self _ _ _, by first | exact mem_jsSetAdd_self _ _ | (dsimp only; exact mem_jsSetAdd_self _ _)⟩
      · rw [e1]
        first
        | exact nodup_keysOf_putKV _ _ _ (nodup_keysOf_putKV _ _ _ hwu)
        | exact nodup_keysOf_putKV _ _ _ hwu
      · rw [e2]; exact nodup_keysOf_putKV _ _ _ hwi
      · rw [e3]; exact nodup_keysOf_putKV _ _ _ hwc
      · rw [e4]; exact nodup_keysOf_putKV _ _ _ hwp
      · intro q now2
        exact leave_hook_idToAuth _ q now2
  | some ud0 =>
    simp only [hu, lookupKV_putKV_self]
    cases hc : lookupKV st.playersByConn p.conn with
    | none =>
      simp only [hc]
      obtain ⟨e1, e2, e3, e4⟩ := ifGhost _
      refine ⟨trivial, ?_, ?_, ?_, ?_, ⟨?_, ?_, ?_, ?_⟩, ?_⟩
      · rw [e2]; exact lookupKV_putKV_self _ _ _
      · rw [countKey_eq_count_keysOf, e4]
        exact count_keysOf_putKV_self _ _ _ hwp
      · rw [e1]
        exact ⟨_, lookupKV_putKV_self _ _ _, by first | exact mem_jsSetAdd_self _ _ | (dsimp only; exact mem_jsSetAdd_self _ _)⟩
      · rw [e3]
        exact ⟨_, lookupKV_putKV_self _ _ _, by first | exact mem_jsSetAdd_self _ _ | (dsimp only; exact mem_jsSetAdd_self _ _)⟩
      · rw [e1]
        first
        | exact nodup_keysOf_putKV _ _ _ (nodup_keysOf_putKV _ _ _ hwu)
        | exact nodup_keysOf_putKV _ _ _ hwu
      · rw [e2]; exact nodup_keysOf_putKV _ _ _ hwi
      · rw [e3]; exact nodup_keysOf_putKV _ _ _ hwc
      · rw [e4]; exact nodup_keysOf_putKV _ _ _ hwp
      · intro q now2
        exact leave_hook_idToAuth _ q now2
    | some l =>
      simp only [hc]
      obtain ⟨e1, e2, e3, e4⟩ := ifGhost _
      refine ⟨trivial, ?_, ?_, ?_, ?_, ⟨?_, ?_, ?_, ?_⟩, ?_⟩
      · rw [e2]; exact lookupKV_putKV_self _ _ _
      · rw [countKey_eq_count_keysOf, e4]
        exact count_keysOf_putKV_self _ _ _ hwp
      · rw [e1]
        exact ⟨_, lookupKV_putKV_self _ _ _, by first | exact mem_jsSetAdd_self _ _ | (dsimp only; exact mem_jsSetAdd_self _ _)⟩
      · rw [e3]
        exact ⟨_, lookupKV_putKV_self _ _ _, by first | exact mem_jsSetAdd_self _ _ | (dsimp only; exact mem_jsSetAdd_self _ _)⟩
      · rw [e1]
        first
        | exact nodup_keysOf_putKV _ _ _ (nodup_keysOf_putKV _ _ _ hwu)
        | exact nodup_keysOf_putKV _ _ _ hwu
      · rw [e2]; exact nodup_keysOf_putKV _ _ _ hwi
      · rw [e3]; exact nodup_keysOf_putKV _ _ _ hwc
      · rw [e4]; exact nodup_keysOf_putKV _ _ _ hwp
      · intro q now2
        exact leave_hook_idToAuth _ q now2

/-- Witness for the C6 theorem: joining into the empty state with ghost kick
enabled maps id 1 to the player auth. -/
theorem onPlayerJoinHook_consistency_witness :
    lookupKV (SavPlayers.onPlayerJoinPreEventHandlerHook
      SavPlayers.emptyPlayersState 5 true SavPlayers.joinBob).1.idToAuth 1
      = some "authB" :=
  (onPlayerJoinHook_consistency SavPlayers.emptyPlayersState 5 true
    SavPlayers.joinBob "authB"
    ⟨List.nodup_nil, List.nodup_nil, List.nodup_nil, List.nodup_nil⟩ rfl).2.1

/-! ## Claim C9: sav/roles add / has / remove -/

theorem putKV_putKV {κ α : Type} [DecidableEq κ]
    (l : List (κ × α)) (k : κ) (v w : α) :
    putKV (putKV l k v) k w = putKV l k w := by
  induction l with
  | nil => simp [putKV]
  | cons e t ih =>
    obtain ⟨k0, w0⟩ := e
    by_cases h : k0 = k
    · simp [putKV, h]
    · simp [putKV, h, ih]

/-- Execution lemma: `hasPlayerRole` on the integer path returns the
membership of the role in the player (or user) role set, after initializing
absent role sets. -/
theorem hasPlayerRole_run (st : SavRoles.RolesState) (pid : Nat)
    (auth role : String) (uR : Bool)
    (hauth : lookupKV st.playerAuth pid = some auth) (hne : auth ≠ "") :
    SavRoles.hasPlayerRole st pid role uR =
      Except.ok (SavRoles.provideAuthenticationInfo st (some pid) auth,
        (if uR then (SavRoles.userRolesOf st auth).getD []
          else (SavRoles.playerRolesOf st pid).getD []).contains role) := by
  have hdet : SavRoles.determineAuth st pid = Except.ok auth := by
    simp [SavRoles.determineAuth, hauth, hne]
  have hPR : SavRoles.playerRolesOf
      (SavRoles.provideAuthenticationInfo st (some pid) auth) pid
      = some ((SavRoles.playerRolesOf st pid).getD []) := by
    simp [SavRoles.provideAuthenticationInfo, SavRoles.playerRolesOf,
      lookupKV_putKV_self]
  have hURx : SavRoles.userRolesOf
      (SavRoles.provideAuthenticationInfo st (some pid) auth) auth
      = some ((SavRoles.userRolesOf st auth).getD []) := by
    simp [SavRoles.provideAuthenticationInfo, SavRoles.userRolesOf,
      lookupKV_putKV_self]
  cases uR <;>
    simp [SavRoles.hasPlayerRole, hdet, hPR, hURx, Bind.bind, Except.bind]

/-- Execution lemma: `addPlayerRole` with `userRole = false` returns the
`addRole` change flag and updates exactly the player role set (plus the
role-set initialization of `provideAuthenticationInfo`). -/
theorem addPlayerRole_run (st : SavRoles.RolesState) (pid : Nat)
    (auth role : String)
    (hauth : lookupKV st.playerAuth pid = some auth) (hne : auth ≠ "") :
    ∃ st1,
      SavRoles.addPlayerRole st pid role false = Except.ok
        (st1, (SavRoles.addRole ((SavRoles.playerRolesOf st pid).getD []) role).1)
      ∧ st1.playerAuth = st.playerAuth
      ∧ st1.playerRoles = putKV st.playerRoles pid
          (some (SavRoles.addRole ((SavRoles.playerRolesOf st pid).getD []) role).2)
      ∧ st1.userRoles = putKV st.userRoles auth
          (some ((SavRoles.userRolesOf st auth).getD [])) := by
  have hdet : SavRoles.determineAuth st pid = Except.ok auth := by
    simp [SavRoles.determineAuth, hauth, hne]
  have hPR : SavRoles.playerRolesOf
      (SavRoles.provideAuthenticationInfo st (some pid) auth) pid
      = some ((SavRoles.playerRolesOf st pid).getD []) := by
    simp [SavRoles.provideAuthenticationInfo, SavRoles.playerRolesOf,
      lookupKV_putKV_self]
  by_cases hR : role ∈ (SavRoles.playerRolesOf st pid).getD []
  · refine ⟨{ SavRoles.provideAuthenticationInfo st (some pid) auth with
        playerRoles := putKV (SavRoles.provideAuthenticationInfo st (some pid) auth).playerRoles pid
          (some (SavRoles.addRole ((SavRoles.playerRolesOf st pid).getD []) role).2) }, ?_, ?_, ?_, ?_⟩
    · simp [SavRoles.addPlayerRole, hdet, hPR, Bind.bind, Except.bind,
        SavRoles.addRole, hR]
    · simp [SavRoles.provideAuthenticationInfo]
    · simp [SavRoles.provideAuthenticationInfo, putKV_putKV]
    · simp [SavRoles.provideAuthenticationInfo, SavRoles.userRolesOf]
  · refine ⟨SavRoles.triggerAuthenticationEvents
        ({ SavRoles.provideAuthenticationInfo st (some pid) auth with
          playerRoles := putKV (SavRoles.provideAuthenticationInfo st (some pid) auth).playerRoles pid
            (some (SavRoles.addRole ((SavRoles.playerRolesOf st pid).getD []) role).2) })
        true role false true, ?_, ?_, ?_, ?_⟩
    · simp [SavRoles.addPlayerRole, hdet, hPR, Bind.bind, Except.bind,
        SavRoles.addRole, hR]
    · simp [SavRoles.triggerAuthenticationEvents, SavRoles.provideAuthenticationInfo]
    · simp [SavRoles.triggerAuthenticationEvents, SavRoles.provideAuthenticationInfo,
        putKV_putKV]
    · simp [SavRoles.triggerAuthenticationEvents, SavRoles.provideAuthenticationInfo,
        SavRoles.userRolesOf]

/-- The authentication events touch only the event log. -/
theorem trigger_fields (st : SavRoles.RolesState) (p : Bool) (role : String)
    (u a : Bool) :
    (SavRoles.triggerAuthenticationEvents st p role u a).playerAuth = st.playerAuth
    ∧ (SavRoles.triggerAuthenticationEvents st p role u a).playerRoles = st.playerRoles
    ∧ (SavRoles.triggerAuthenticationEvents st p role u a).userRoles = st.userRoles := by
  cases p <;> cases u <;> simp [SavRoles.triggerAuthenticationEvents]

/-- Execution lemma: `removePlayerRole` reports whether the player or the
user had the role and deletes it from both role sets. -/
theorem removePlayerRole_run (st : SavRoles.RolesState) (pid : Nat)
    (auth role : String)
    (hauth : lookupKV st.playerAuth pid = some auth) (hne : auth ≠ "") :
    ∃ st4,
      SavRoles.removePlayerRole st pid role = Except.ok
        (st4, (((SavRoles.playerRolesOf st pid).getD []).contains role
          || ((SavRoles.userRolesOf st auth).getD []).contains role))
      ∧ st4.playerAuth = st.playerAuth
      ∧ st4.playerRoles = putKV st.playerRoles pid
          (some (((SavRoles.playerRolesOf st pid).getD []).filter (fun r => r ≠ role)))
      ∧ st4.userRoles = putKV st.userRoles auth
          (some (((SavRoles.userRolesOf st auth).getD []).filter (fun r => r ≠ role))) := by
  have hdet : SavRoles.determineAuth st pid = Except.ok auth := by
    simp [SavRoles.determineAuth, hauth, hne]
  by_cases hHad : (role ∈ (SavRoles.playerRolesOf st pid).getD []
      ∨ role ∈ (SavRoles.userRolesOf st auth).getD [])
  · simp only [SavRoles.playerRolesOf, SavRoles.userRolesOf] at hHad
    refine ⟨SavRoles.triggerAuthenticationEvents
        ({ SavRoles.provideAuthenticationInfo st (some pid) auth with
          playerRoles := putKV
            (SavRoles.provideAuthenticationInfo st (some pid) auth).playerRoles pid
            (some (((SavRoles.playerRolesOf st pid).getD []).filter (fun r => r ≠ role))),
          userRoles := putKV
            (SavRoles.provideAuthenticationInfo st (some pid) auth).userRoles auth
            (some (((SavRoles.userRolesOf st auth).getD []).filter (fun r => r ≠ role))) })
        true role (((SavRoles.userRolesOf st auth).getD []).contains role) false,
        ?_, ?_, ?_, ?_⟩
    · simp only [SavRoles.removePlayerRole, hdet, Bind.bind, Except.bind,
        SavRoles.provideAuthenticationInfo, SavRoles.userRolesOf,
        SavRoles.playerRolesOf, lookupKV_putKV_self, putKV_putKV]
      simp [SavRoles.playerRolesOf, SavRoles.userRolesOf, lookupKV_putKV_self,
        putKV_putKV]
      intro h1 h2
      rcases hHad with h | h
      · exact absurd h h1
      · exact absurd h h2
    · rw [(trigger_fields _ _ _ _ _).1]
      simp [SavRoles.provideAuthenticationInfo]
    · rw [(trigger_fields _ _ _ _ _).2.1]
      simp [SavRoles.provideAuthenticationInfo, SavRoles.playerRolesOf,
        lookupKV_putKV_self, putKV_putKV]
    · rw [(trigger_fields _ _ _ _ _).2.2]
      simp [SavRoles.provideAuthenticationInfo, SavRoles.userRolesOf,
        lookupKV_putKV_self, putKV_putKV]
  · simp only [SavRoles.playerRolesOf, SavRoles.userRolesOf] at hHad
    refine ⟨{ SavRoles.provideAuthenticationInfo st (some pid) auth with
          playerRoles := putKV
            (SavRoles.provideAuthenticationInfo st (some pid) auth).playerRoles pid
            (some (((SavRoles.playerRolesOf st pid).getD []).filter (fun r => r ≠ role))),
          userRoles := putKV
            (SavRoles.provideAuthenticationInfo st (some pid) auth).userRoles auth
            (some (((SavRoles.userRolesOf st auth).getD []).filter (fun r => r ≠ role))) },
        ?_, ?_, ?_, ?_⟩
    · simp only [SavRoles.removePlayerRole, hdet, Bind.bind, Except.bind,
        SavRoles.provideAuthenticationInfo, SavRoles.userRolesOf,
        SavRoles.playerRolesOf, lookupKV_putKV_self, putKV_putKV]
      simp [SavRoles.playerRolesOf, SavRoles.userRolesOf, lookupKV_putKV_self,
        putKV_putKV]
      intro h
      exact absurd h hHad
    · simp [SavRoles.provideAuthenticationInfo]
    · simp [SavRoles.provideAuthenticationInfo, SavRoles.playerRolesOf,
        lookupKV_putKV_self, putKV_putKV]
    · simp [SavRoles.provideAuthenticationInfo, SavRoles.userRolesOf,
        lookupKV_putKV_self, putKV_putKV]

theorem addRole_fst (l : List String) (role : String) :
    (SavRoles.addRole l role).1 = !(l.contains role) := by
  by_cases h : role ∈ l <;> simp [SavRoles.addRole, h]

theorem mem_addRole_snd (l : List String) (role : String) :
    role ∈ (SavRoles.addRole l role).2 := by
  by_cases h : role ∈ l <;> simp [SavRoles.addRole, h]

theorem addRole_of_mem {l : List String} {role : String} (h : role ∈ l) :
    SavRoles.addRole l role = (false, l) := by
  simp [SavRoles.addRole, h]

/-- Claim C9: for an online player (a player id the host resolves to a
non-empty auth), `addPlayerRole(playerId, role)` returns true exactly when
the player did not already have the role and afterwards
`hasPlayerRole(playerId, role)` returns true; a second identical
`addPlayerRole` returns false and changes neither role map;
`removePlayerRole(playerId, role)` returns true exactly when the player or
the user had the role beforehand and afterwards `hasPlayerRole` returns
false. -/
theorem roles_add_remove_spec (st : SavRoles.RolesState) (pid : Nat)
    (auth role : String)
    (hauth : lookupKV st.playerAuth pid = some auth) (hne : auth ≠ "") :
    ∃ st1 r1 sth bh stu bu,
      SavRoles.addPlayerRole st pid role false = Except.ok (st1, r1)
      ∧ SavRoles.hasPlayerRole st pid role false = Except.ok (sth, bh)
      ∧ SavRoles.hasPlayerRole st pid role true = Except.ok (stu, bu)
      ∧ r1 = !bh
      ∧ (∃ st2, SavRoles.hasPlayerRole st1 pid role false = Except.ok (st2, true))
      ∧ (∃ st3 r2, SavRoles.addPlayerRole st1 pid role false = Except.ok (st3, r2)
          ∧ r2 = false ∧ st3.playerRoles = st1.playerRoles
          ∧ st3.userRoles = st1.userRoles)
      ∧ (∃ st4 rr, SavRoles.removePlayerRole st pid role = Except.ok (st4, rr)
          ∧ rr = (bh || bu)
          ∧ (∃ st5, SavRoles.hasPlayerRole st4 pid role false = Except.ok (st5, false))) := by
  obtain ⟨st1, hA, hA1, hA2, hA3⟩ := addPlayerRole_run st pid auth role hauth hne
  have hH := hasPlayerRole_run st pid auth role false hauth hne
  have hHU := hasPlayerRole_run st pid auth role true hauth hne
  have hauth1 : lookupKV st1.playerAuth pid = some auth := by
    rw [hA1]; exact hauth
  have hPR1 : (SavRoles.playerRolesOf st1 pid).getD []
      = (SavRoles.addRole ((SavRoles.playerRolesOf st pid).getD []) role).2 := by
    simp [SavRoles.playerRolesOf, hA2, lookupKV_putKV_self]
  have hUR1 : (SavRoles.userRolesOf st1 auth).getD []
      = (SavRoles.userRolesOf st auth).getD [] := by
    simp [SavRoles.userRolesOf, hA3, lookupKV_putKV_self]
  have hH1 := hasPlayerRole_run st1 pid auth role false hauth1 hne
  obtain ⟨st3, hA', hA'1, hA'2, hA'3⟩ := addPlayerRole_run st1 pid auth role hauth1 hne
  obtain ⟨st4, hRem, hR1, hR2, hR3⟩ := removePlayerRole_run st pid auth role hauth hne
  have hauth4 : lookupKV st4.playerAuth pid = some auth := by
    rw [hR1]; exact hauth
  have hH4 := hasPlayerRole_run st4 pid auth role false hauth4 hne
  have hmem1 : role ∈ (SavRoles.playerRolesOf st1 pid).getD [] := by
    rw [hPR1]; exact mem_addRole_snd _ _
  refine ⟨st1, _, _, _, _, _, hA, hH, hHU, ?_, ?_, ?_, ?_⟩
  · exact addRole_fst _ _
  · have hb1 : (if (false : Bool) then (SavRoles.userRolesOf st1 auth).getD []
        else (SavRoles.playerRolesOf st1 pid).getD []).contains role = true := by
      simpa using hmem1
    exact ⟨_, by rw [hH1, hb1]⟩
  · refine ⟨st3, _, hA', ?_, ?_, ?_⟩
    · rw [addRole_fst]
      simp [hmem1]
    · rw [hA'2, addRole_of_mem hmem1]
      have : putKV st1.playerRoles pid (some ((SavRoles.playerRolesOf st1 pid).getD []))
          = st1.playerRoles := by
        rw [hA2, hPR1, putKV_putKV]
      exact this
    · rw [hA'3, hUR1, hA3, putKV_putKV]
  · refine ⟨st4, _, hRem, rfl, ?_⟩
    have hb4 : (if (false : Bool) then (SavRoles.userRolesOf st4 auth).getD []
        else (SavRoles.playerRolesOf st4 pid).getD []).contains role = false := by
      have : (SavRoles.playerRolesOf st4 pid).getD []
          = ((SavRoles.playerRolesOf st pid).getD []).filter (fun r => r ≠ role) := by
        simp [SavRoles.playerRolesOf, hR2, lookupKV_putKV_self]
      simp [this]
    exact ⟨_, by rw [hH4, hb4]⟩

/-- Witness for the C9 theorem at a concrete state with one known player. -/
theorem roles_add_remove_spec_witness :
    ∃ st1 r1 sth bh stu bu,
      SavRoles.addPlayerRole SavRoles.rolesDemoState 2 "mod" false = Except.ok (st1, r1)
      ∧ SavRoles.hasPlayerRole SavRoles.rolesDemoState 2 "mod" false = Except.ok (sth, bh)
      ∧ SavRoles.hasPlayerRole SavRoles.rolesDemoState 2 "mod" true = Except.ok (stu, bu)
      ∧ r1 = !bh
      ∧ (∃ st2, SavRoles.hasPlayerRole st1 2 "mod" false = Except.ok (st2, true))
      ∧ (∃ st3 r2, SavRoles.addPlayerRole st1 2 "mod" false = Except.ok (st3, r2)
          ∧ r2 = false ∧ st3.playerRoles = st1.playerRoles
          ∧ st3.userRoles = st1.userRoles)
      ∧ (∃ st4 rr, SavRoles.removePlayerRole SavRoles.rolesDemoState 2 "mod" = Except.ok (st4, rr)
          ∧ rr = (bh || bu)
          ∧ (∃ st5, SavRoles.hasPlayerRole st4 2 "mod" false = Except.ok (st5, false))) :=
  roles_add_remove_spec SavRoles.rolesDemoState 2 "authR" "mod" rfl (by decide)

/-! ## Claim C7: sav/cron game-time cron jobs -/

set_option maxRecDepth 4000 in
/-- Claim C7 (counterexample): the claim says the job fires periodically
with a period of `N * units[Unit] * 60` game ticks under any configured
`gameTicks`.  For the handler `onCron1GameSeconds` (so `numTicks = 60`) and
`gameTicks = 7`, the only fires among the first 130 ticks are at ticks 64
and 127, which are 63 ticks apart, not 60: the counter advances by 7 per
run with a clamp at 60, so the true period is
`gameTicks * ceil(numTicks / gameTicks) = 63` ticks. -/
theorem gameCron_period_counterexample :
    SavCron.createGameTimeCronJob "onCron1GameSeconds".data "Seconds" = some 60
    ∧ SavCron.fireTicks 7 60 130 = [64, 127]
    ∧ ¬ (127 - 64 = 60) := by
  refine ⟨by decide, by decide, by decide⟩

/-- A registered game-time cron job has at least 60 ticks per period. -/
theorem createGameTimeCronJob_numTicks (handlerName : List Char) (unit : String)
    (n : Nat) (hjob : SavCron.createGameTimeCronJob handlerName unit = some n) :
    60 ≤ n := by
  unfold SavCron.createGameTimeCronJob at hjob
  rcases h1 : SavCron.jsParseInt
      (SavCron.jsSubstr handlerName 6 (handlerName.length - 10 - unit.length))
    with _ | time
  · rw [h1] at hjob
    simp at hjob
  · rw [h1] at hjob
    by_cases h2 : time ≤ 0
    · simp [h2] at hjob
    · rcases h3 : lookupKV SavCron.units unit with _ | u
      · simp [h2, h3] at hjob
      · simp only [h2, if_false, h3, Option.some.injEq] at hjob
        have htime : 1 ≤ time := by omega
        have hu : 1 ≤ u := by
          simp only [SavCron.units, lookupKV] at h3
          by_cases ha : ("Seconds" : String) = unit
          · simp [ha] at h3
            omega
          · by_cases hb : ("Minutes" : String) = unit
            · simp [ha, hb] at h3
              omega
            · by_cases hc : ("Hours" : String) = unit
              · simp [ha, hb, hc] at h3
                omega
              · simp [ha, hb, hc] at h3
        have h60 : 1 * 1 * 60 ≤ time * u * 60 :=
          Nat.mul_le_mul (Nat.mul_le_mul htime hu) (le_refl 60)
        omega

/-- From a zero counter the job counter revisits zero exactly every
`p = ceil(numTicks / gameTicks)` runs (characterized multiplicatively). -/
theorem tickStep_iter_zero (g n p : Nat) (hg : 1 ≤ g) (hn : 1 ≤ n)
    (hpmin : ∀ i, i < p → i * g < n) (hple : n ≤ p * g) :
    (∀ i, i < p → (SavCron.tickStep g n)^[i] 0 = i * g)
    ∧ (SavCron.tickStep g n)^[p] 0 = 0 := by
  have hp1 : 1 ≤ p := by
    rcases Nat.eq_zero_or_pos p with h | h
    · subst h
      simp at hple
      omega
    · exact h
  have Z1 : ∀ i, i < p → (SavCron.tickStep g n)^[i] 0 = i * g := by
    intro i hi
    induction i with
    | zero => simp
    | succ i ih =>
      rw [Function.iterate_succ_apply', ih (by omega)]
      unfold SavCron.tickStep
      have hlt : (i + 1) * g < n := hpmin (i + 1) hi
      rw [Nat.succ_mul] at hlt
      rw [min_eq_left (by omega)]
      rw [Nat.mod_eq_of_lt (by omega)]
      rw [Nat.succ_mul]
  refine ⟨Z1, ?_⟩
  have hsplit : p = (p - 1) + 1 := by omega
  rw [hsplit, Function.iterate_succ_apply', Z1 (p - 1) (by omega)]
  unfold SavCron.tickStep
  have hge : n ≤ (p - 1) * g + g := by
    have : (p - 1) * g + g = p * g := by
      conv_rhs => rw [hsplit]
      rw [Nat.succ_mul]
    omega
  rw [min_eq_right (by omega)]
  simp

/-- From the initial counter 1 the job counter first reaches zero on run
`m0 = ceil((numTicks - 1) / gameTicks)` (characterized multiplicatively). -/
theorem tickStep_iter_one (g n m0 : Nat) (hg : 1 ≤ g) (hn : 2 ≤ n)
    (hmmin : ∀ i, i < m0 → 1 + i * g < n) (hmle : n ≤ 1 + m0 * g) :
    (∀ i, i < m0 → (SavCron.tickStep g n)^[i] 1 = 1 + i * g)
    ∧ (SavCron.tickStep g n)^[m0] 1 = 0 := by
  have hm1 : 1 ≤ m0 := by
    rcases Nat.eq_zero_or_pos m0 with h | h
    · subst h
      simp at hmle
      omega
    · exact h
  have Y1 : ∀ i, i < m0 → (SavCron.tickStep g n)^[i] 1 = 1 + i * g := by
    intro i hi
    induction i with
    | zero => simp
    | succ i ih =>
      rw [Function.iterate_succ_apply', ih (by omega)]
      unfold SavCron.tickStep
      have hlt : 1 + (i + 1) * g < n := hmmin (i + 1) hi
      rw [Nat.succ_mul] at hlt
      rw [min_eq_left (by omega)]
      rw [Nat.mod_eq_of_lt (by omega)]
      rw [Nat.succ_mul]
      omega
  refine ⟨Y1, ?_⟩
  have hsplit : m0 = (m0 - 1) + 1 := by omega
  rw [hsplit, Function.iterate_succ_apply', Y1 (m0 - 1) (by omega)]
  unfold SavCron.tickStep
  have hge : n ≤ 1 + (m0 - 1) * g + g := by
    have : (m0 - 1) * g + g = m0 * g := by
      conv_rhs => rw [hsplit]
      rw [Nat.succ_mul]
    omega
  rw [min_eq_right (by omega)]
  simp

/-- The set of run indices at which the job counter is zero. -/
theorem tickStep_zero_set (g n p m0 : Nat) (hg : 1 ≤ g) (hn : 2 ≤ n)
    (hpmin : ∀ i, i < p → i * g < n) (hple : n ≤ p * g)
    (hmmin : ∀ i, i < m0 → 1 + i * g < n) (hmle : n ≤ 1 + m0 * g) :
    ∀ m, ((SavCron.tickStep g n)^[m] 1 = 0 ↔ (m0 ≤ m ∧ (m - m0) % p = 0)) := by
  obtain ⟨Z1, Z2⟩ := tickStep_iter_zero g n p hg (by omega) hpmin hple
  obtain ⟨Y1, Y2⟩ := tickStep_iter_one g n m0 hg hn hmmin hmle
  have hp1 : 1 ≤ p := by
    rcases Nat.eq_zero_or_pos p with h | h
    · subst h
      simp at hple
      omega
    · exact h
  have Zper : ∀ m, (SavCron.tickStep g n)^[m + p] 0 = (SavCron.tickStep g n)^[m] 0 := by
    intro m
    rw [Function.iterate_add_apply, Z2]
  have Zmod : ∀ m, (SavCron.tickStep g n)^[m] 0 = (SavCron.tickStep g n)^[m % p] 0 := by
    intro m
    induction m using Nat.strong_induction_on with
    | _ m ih =>
      by_cases h : m < p
      · rw [Nat.mod_eq_of_lt h]
      · have hm : m = (m - p) + p := by omega
        rw [hm, Zper, ih (m - p) (by omega), Nat.add_mod_right]
  have Zzero : ∀ m, ((SavCron.tickStep g n)^[m] 0 = 0 ↔ m % p = 0) := by
    intro m
    rw [Zmod m]
    constructor
    · intro h
      have hlt : m % p < p := Nat.mod_lt _ (by omega)
      rw [Z1 _ hlt] at h
      have := Nat.mul_eq_zero.mp h
      omega
    · intro h
      rw [h]
      simp
  intro m
  by_cases hm : m < m0
  · rw [Y1 m hm]
    constructor
    · intro h
      exact absurd h (by omega)
    · intro h
      exact absurd h.1 (by omega)
  · have hsplit : m = (m - m0) + m0 := by omega
    rw [hsplit, Function.iterate_add_apply, Y2, Zzero]
    rw [Nat.add_sub_cancel]
    constructor
    · intro h
      exact ⟨by omega, h⟩
    · intro h
      exact h.2

/-- State of the tick simulation: after `m * gameTicks + r` invocations
of `onGameTickHandler`, `globalTickCount` is `r` and the job counter has
been stepped once per completed run. -/
theorem simFire_state (g n : Nat) (hg : 1 ≤ g) :
    ∀ m : Nat, ((SavCron.simFire g n (m * g)).1 = (0, (SavCron.tickStep g n)^[m] 1))
      ∧ (∀ r, r < g → (SavCron.simFire g n (m * g + r)).1 =
          (r, if r = 0 then (SavCron.tickStep g n)^[m] 1
            else (SavCron.tickStep g n)^[m + 1] 1)) := by
  have inner : ∀ m, (SavCron.simFire g n (m * g)).1 = (0, (SavCron.tickStep g n)^[m] 1) →
      ∀ r, r < g → (SavCron.simFire g n (m * g + r)).1 =
        (r, if r = 0 then (SavCron.tickStep g n)^[m] 1
          else (SavCron.tickStep g n)^[m + 1] 1) := by
    intro m hbase r
    induction r with
    | zero =>
      intro _
      simpa using hbase
    | succ r ih =>
      intro hr
      have hstate := ih (by omega)
      show (SavCron.onGameTickHandler g n (SavCron.simFire g n (m * g + r)).1).1 = _
      rw [hstate]
      by_cases hr0 : r = 0
      · subst hr0
        simp only [SavCron.onGameTickHandler, if_pos rfl]
        have hgtc : SavCron.gtcStep g 0 = 1 := by
          unfold SavCron.gtcStep
          rw [min_eq_left (by omega), Nat.mod_eq_of_lt (by omega)]
        simp [hgtc, ← Function.iterate_succ_apply']
      · simp only [SavCron.onGameTickHandler, if_neg hr0]
        have hgtc : SavCron.gtcStep g r = r + 1 := by
          unfold SavCron.gtcStep
          rw [min_eq_left (by omega), Nat.mod_eq_of_lt (by omega)]
        simp [hgtc, hr0]
  intro m
  induction m with
  | zero =>
    have hbase : (SavCron.simFire g n (0 * g)).1 = (0, (SavCron.tickStep g n)^[0] 1) := by
      simp [SavCron.simFire]
    exact ⟨hbase, inner 0 hbase⟩
  | succ m ihm =>
    have hstate := (inner m ihm.1) (g - 1) (by omega)
    have heq : (m + 1) * g = (m * g + (g - 1)) + 1 := by
      rw [Nat.succ_mul]
      omega
    have hbase : (SavCron.simFire g n ((m + 1) * g)).1 =
        (0, (SavCron.tickStep g n)^[m + 1] 1) := by
      rw [heq]
      show (SavCron.onGameTickHandler g n (SavCron.simFire g n (m * g + (g - 1))).1).1 = _
      rw [hstate]
      by_cases hg1 : g - 1 = 0
      · simp only [hg1, if_pos rfl]
        simp only [SavCron.onGameTickHandler, if_pos rfl]
        have hgtc : SavCron.gtcStep g 0 = 0 := by
          have : g = 1 := by omega
          subst this
          simp [SavCron.gtcStep]
        simp [hgtc, ← Function.iterate_succ_apply']
      · simp only [SavCron.onGameTickHandler, if_neg hg1]
        have hgtc : SavCron.gtcStep g (g - 1) = 0 := by
          unfold SavCron.gtcStep
          rw [min_eq_right (by omega)]
          simp
        simp [hgtc, hg1]
    exact ⟨hbase, inner (m + 1) hbase⟩

/-- The handler event fires on invocation `m * gameTicks + r + 1` exactly
when that invocation runs the jobs (`r = 0`) with a zero counter. -/
theorem simFire_fires (g n : Nat) (hg : 1 ≤ g) :
    ∀ m r, r < g → ((SavCron.simFire g n (m * g + r + 1)).2 = true
      ↔ (r = 0 ∧ (SavCron.tickStep g n)^[m] 1 = 0)) := by
  intro m r hr
  have hstate := ((simFire_state g n hg) m).2 r hr
  show (SavCron.onGameTickHandler g n (SavCron.simFire g n (m * g + r)).1).2 = true ↔ _
  rw [hstate]
  by_cases hr0 : r = 0
  · subst hr0
    simp [SavCron.onGameTickHandler]
  · simp [SavCron.onGameTickHandler, hr0]

/-- Claim C7 (amended): for every registered game-time cron job with
`numTicks = N * units[Unit] * 60` and every `gameTicks ≥ 1`, the jobs run
every `gameTicks` ticks (on ticks `m * gameTicks + 1`), the `tickCounter`
starts at 1, and the event fires exactly on the runs
`m = m0, m0 + p, m0 + 2p, ...` where `p = ceil(numTicks / gameTicks)` and
`m0 = ceil((numTicks - 1) / gameTicks)` (both characterized by the
multiplicative bounds below), i.e. with a period of
`gameTicks * ceil(numTicks / gameTicks)` game ticks; this equals the
claimed `N * units[Unit] * 60` exactly when `gameTicks` divides
`numTicks`. -/
theorem gameCron_period_amended (handlerName : List Char) (unit : String)
    (n g : Nat) (hjob : SavCron.createGameTimeCronJob handlerName unit = some n)
    (hg : 1 ≤ g) :
    ∃ p m0, 1 ≤ p ∧ 1 ≤ m0
      ∧ (∀ i, i < p → i * g < n) ∧ n ≤ p * g
      ∧ (∀ i, i < m0 → 1 + i * g < n) ∧ n ≤ 1 + m0 * g
      ∧ (∀ m r, r < g →
          ((SavCron.simFire g n (m * g + r + 1)).2 = true
            ↔ (r = 0 ∧ m0 ≤ m ∧ (m - m0) % p = 0)))
      ∧ (p * g = n ↔ g ∣ n) := by
  have hn : 60 ≤ n := createGameTimeCronJob_numTicks handlerName unit n hjob
  have hpex : ∃ p, n ≤ p * g := ⟨n, Nat.le_mul_of_pos_right n (by omega)⟩
  have hmex : ∃ m, n ≤ 1 + m * g := ⟨n, by
    have := Nat.le_mul_of_pos_right n (show 0 < g by omega)
    omega⟩
  refine ⟨Nat.find hpex, Nat.find hmex, ?_, ?_, ?_, ?_, ?_, ?_, ?_, ?_⟩
  · rcases Nat.eq_zero_or_pos (Nat.find hpex) with h | h
    · have := Nat.find_spec hpex
      rw [h] at this
      simp at this
      omega
    · exact h
  · rcases Nat.eq_zero_or_pos (Nat.find hmex) with h | h
    · have := Nat.find_spec hmex
      rw [h] at this
      simp at this
      omega
    · exact h
  · intro i hi
    have := Nat.find_min hpex hi
    omega
  · exact Nat.find_spec hpex
  · intro i hi
    have := Nat.find_min hmex hi
    omega
  · exact Nat.find_spec hmex
  · intro m r hr
    rw [simFire_fires g n hg m r hr]
    rw [tickStep_zero_set g n (Nat.find hpex) (Nat.find hmex) hg (by omega)
      (fun i hi => by have := Nat.find_min hpex hi; omega) (Nat.find_spec hpex)
      (fun i hi => by have := Nat.find_min hmex hi; omega) (Nat.find_spec hmex) m]
  · constructor
    · intro h
      exact ⟨Nat.find hpex, h.symm.trans (Nat.mul_comm g (Nat.find hpex)).symm⟩
    · rintro ⟨k, hk⟩
      have h1 : Nat.find hpex ≤ k := Nat.find_min' hpex (by
        rw [hk, Nat.mul_comm])
      have h2 : Nat.find hpex * g ≤ k * g := Nat.mul_le_mul_right g h1
      have h3 := Nat.find_spec hpex
      have hk2 : k * g = n := (Nat.mul_comm k g).trans hk.symm
      omega

/-- Witness for the amended C7 theorem with the default configuration
`gameTicks = 60` and the handler `onCron1GameSeconds`. -/
theorem gameCron_period_amended_witness :
    ∃ p m0, 1 ≤ p ∧ 1 ≤ m0
      ∧ (∀ i, i < p → i * 60 < 60) ∧ 60 ≤ p * 60
      ∧ (∀ i, i < m0 → 1 + i * 60 < 60) ∧ 60 ≤ 1 + m0 * 60
      ∧ (∀ m r, r < 60 →
          ((SavCron.simFire 60 60 (m * 60 + r + 1)).2 = true
            ↔ (r = 0 ∧ m0 ≤ m ∧ (m - m0) % p = 0)))
      ∧ (p * 60 = 60 ↔ 60 ∣ 60) :=
  gameCron_period_amended "onCron1GameSeconds".data "Seconds" 60 60
    (by decide) (by decide)

namespace SavCommands

/-- `splitAux` produces at most one component more than the message has
characters, whatever the fuel. -/
theorem splitAux_length_le (s0 : Char) (srest : List Char) :
    ∀ (fuel : Nat) (m acc : List Char),
      (splitAux s0 srest fuel m acc).length ≤ m.length + 1 := by
  intro fuel
  induction fuel with
  | zero =>
    intro m acc
    cases m <;> simp [splitAux]
  | succ n ih =>
    intro m acc
    cases m with
    | nil => simp [splitAux]
    | cons c cs =>
      simp only [splitAux]
      by_cases hp : (s0 :: srest).isPrefixOf (c :: cs)
      · rw [if_pos hp]
        have h := ih (cs.drop srest.length) []
        simp only [List.length_cons, List.length_drop] at h ⊢
        omega
      · rw [if_neg hp]
        have h := ih cs (c :: acc)
        simp only [List.length_cons] at h ⊢
        omega

/-- With enough fuel and a one-character separator, the first component of
`splitAux` is the accumulator followed by the longest separator-free run of
the message. -/
theorem splitAux_single_head (c0 : Char) :
    ∀ (fuel : Nat) (m acc : List Char), m.length ≤ fuel →
      ∃ t, splitAux c0 [] fuel m acc
        = (acc.reverse ++ m.takeWhile (fun x => x ≠ c0)) :: t := by
  intro fuel
  induction fuel with
  | zero =>
    intro m acc h
    have hm : m = [] := List.length_eq_zero.mp (Nat.le_zero.mp h)
    subst hm
    exact ⟨[], by simp [splitAux]⟩
  | succ n ih =>
    intro m acc h
    cases m with
    | nil => exact ⟨[], by simp [splitAux]⟩
    | cons c cs =>
      simp only [splitAux]
      by_cases hc : c0 = c
      · have hpf : ((c0 :: []).isPrefixOf (c :: cs)) = true := by
          simp [List.isPrefixOf_iff_prefix, List.cons_prefix_iff, hc]
        rw [if_pos hpf]
        subst hc
        refine ⟨splitAux c0 [] n (cs.drop 0) [], ?_⟩
        simp [List.takeWhile_cons]
      · have hpf : ¬ (((c0 :: []).isPrefixOf (c :: cs)) = true) := by
          simp [List.isPrefixOf_iff_prefix, List.cons_prefix_iff, hc]
        rw [if_neg hpf]
        have hcc : (c ≠ c0) := fun hh => hc hh.symm
        obtain ⟨t, ht⟩ := ih cs (c :: acc)
          (by simp only [List.length_cons] at h ⊢; omega)
        refine ⟨t, ?_⟩
        rw [ht]
        simp [List.takeWhile_cons, hcc, List.append_assoc]

/-- The first component of a single-character split is the longest
separator-free initial run. -/
theorem jsSplitAll_single_eq (c0 : Char) (m : List Char) :
    ∃ t, jsSplitAll m [c0] = m.takeWhile (fun x => x ≠ c0) :: t := by
  obtain ⟨t, ht⟩ := splitAux_single_head c0 m.length m [] (le_refl _)
  exact ⟨t, by simpa [jsSplitAll] using ht⟩

/-- A split never has more components than characters plus one. -/
theorem jsSplitAll_length_le (m sep : List Char) :
    (jsSplitAll m sep).length ≤ m.length + 1 := by
  cases sep with
  | nil => simp [jsSplitAll]
  | cons s0 srest => exact splitAux_length_le s0 srest m.length m []

/-- A split limit at least `length + 1` does not truncate. -/
theorem jsSplit_unlimited (m sep : List Char) (lim : Nat)
    (h : m.length + 1 ≤ lim) : jsSplit m sep lim = jsSplitAll m sep :=
  List.take_of_length_le (le_trans (jsSplitAll_length_le m sep) h)

/-- Index 1 of a two-element truncation agrees with index 1 of the list. -/
theorem getD_one_take_two (l : List (List Char)) :
    (l.take 2).getD 1 [] = l.getD 1 [] := by
  match l with
  | [] => rfl
  | [a] => rfl
  | a :: b :: t => rfl

/-- `removeMultiAux` never lengthens the message. -/
theorem removeMultiAux_length_le (cp : List Char) :
    ∀ (fuel : Nat) (m : List Char),
      (removeMultiAux cp fuel m).length ≤ m.length := by
  intro fuel
  induction fuel with
  | zero => intro m; simp [removeMultiAux]
  | succ n ih =>
    intro m
    simp only [removeMultiAux]
    by_cases hp : (cp ++ cp).isPrefixOf m
    · rw [if_pos hp]
      exact le_trans (ih (m.drop cp.length)) (by simp)
    · rw [if_neg hp]

/-- `removeMultiCommandPrefix` never lengthens the message. -/
theorem removeMulti_length_le (m cp : List Char) :
    (removeMultiCommandPrefix m cp).length ≤ m.length :=
  removeMultiAux_length_le cp (m.length + 1) m

/-- `takeWhile` keeps an initial segment all of whose characters satisfy
the predicate. -/
theorem takeWhile_append_of_all (c0 : Char) :
    ∀ (pfx t : List Char), (∀ c ∈ pfx, c ≠ c0) →
      ∃ u, (pfx ++ t).takeWhile (fun x => x ≠ c0) = pfx ++ u := by
  intro pfx
  induction pfx with
  | nil => intro t _; exact ⟨t.takeWhile (fun x => x ≠ c0), by simp⟩
  | cons a p ih =>
    intro t hall
    have ha : a ≠ c0 := hall a (by simp)
    obtain ⟨u, hu⟩ := ih t (fun c hc => hall c (by simp [hc]))
    refine ⟨u, ?_⟩
    simp only [List.cons_append, List.takeWhile_cons, hu]
    simp [ha]

/-- Dropping whitespace from the front of `l ++ pfx.reverse` and reversing
keeps `pfx` in front when `pfx` is non-empty and whitespace-free; this is
the right-trimming half of `jsTrim`. -/
theorem dropWhile_rev_keeps_start (pfx : List Char) (hne : pfx ≠ [])
    (hall : ∀ c ∈ pfx, c.isWhitespace = false) :
    ∀ l : List Char,
      ∃ u, ((l ++ pfx.reverse).dropWhile Char.isWhitespace).reverse
        = pfx ++ u := by
  intro l
  induction l with
  | nil =>
    have hnr : pfx.reverse ≠ [] := by simpa using hne
    obtain ⟨b, l2, hb⟩ := List.exists_cons_of_ne_nil hnr
    have hbmem : b ∈ pfx := by
      rw [← List.mem_reverse, hb]; simp
    have hbws : b.isWhitespace = false := hall b hbmem
    refine ⟨[], ?_⟩
    rw [List.nil_append, hb, List.dropWhile_cons]
    simp [hbws, ← hb]
  | cons c l2 ih =>
    by_cases hc : c.isWhitespace
    · obtain ⟨u, hu⟩ := ih
      exact ⟨u, by simpa [List.cons_append, List.dropWhile_cons, hc] using hu⟩
    · refine ⟨l2.reverse ++ [c], ?_⟩
      have hcf : c.isWhitespace = false := by simpa using hc
      simp [List.cons_append, List.dropWhile_cons, hcf, List.reverse_append]

/-- `jsTrim` keeps a non-empty whitespace-free initial segment in front. -/
theorem jsTrim_keeps_start (pfx s : List Char) (hne : pfx ≠ [])
    (hall : ∀ c ∈ pfx, c.isWhitespace = false)
    (hp : ∃ t, s = pfx ++ t) : ∃ u, jsTrim s = pfx ++ u := by
  obtain ⟨t, rfl⟩ := hp
  obtain ⟨a, p, rfl⟩ := List.exists_cons_of_ne_nil hne
  have haf : a.isWhitespace = false := hall a (by simp)
  obtain ⟨u, hu⟩ := dropWhile_rev_keeps_start (a :: p) hne hall t.reverse
  refine ⟨u, ?_⟩
  unfold jsTrim
  rw [List.cons_append, List.dropWhile_cons]
  simp only [haf, Bool.false_eq_true, if_false]
  rw [show (a :: (p ++ t)).reverse = t.reverse ++ (a :: p).reverse from by simp]
  exact hu


set_option maxRecDepth 4000 in
/-- C8 counterexample: for the message `!foo bar baz` with the default
command prefix and separator, `parseMessage` yields command `foo` and
arguments `bar`, `baz`, but its `argumentString` is `bar` -- the second raw
separator-delimited component of the message (`message.split(separator, 2)[1]`,
a two-element truncating split) -- and not the original message minus the
command, which would be `bar baz`. -/
theorem parseMessage_argumentString_counterexample :
    (parseMessage "!foo bar baz".data none "!".data none).command = "foo".data ∧
    (parseMessage "!foo bar baz".data none "!".data none).arguments
      = ["bar".data, "baz".data] ∧
    (parseMessage "!foo bar baz".data none "!".data none).argumentString
      = "bar".data ∧
    removeMultiCommandPrefix "!foo bar baz".data "!".data
      = "!foo bar baz".data ∧
    "bar".data ≠ "bar baz".data := by
  decide


/-- C8 (amended): for any message and any non-empty, whitespace-free command
prefix (the separator and argument limit left at their defaults, the message
shorter than the split-limit cutoff 2^32-1), with `msg` the message after
collapsed repeated leading prefixes: if `msg` does not start with the prefix
or is shorter than 2 characters, `parseMessage` returns empty command,
arguments and argumentString (and no `originalMessage`); otherwise the
trimmed non-empty separator-delimited tokens of `msg` are `p0 :: rest` with
`p0` starting with the prefix, the command is `p0` with the prefix removed
when anything follows the prefix and the string `undefined` otherwise, the
arguments are `rest`, and the argumentString is the second raw (untrimmed,
unfiltered) separator-delimited component of `msg` when more than one token
exists, the empty string otherwise -- not the message minus the command. -/
theorem parseMessage_amended (message commandPfx msg : List Char)
    (res : ParsedMessage)
    (hmsg : msg = removeMultiCommandPrefix message commandPfx)
    (hres : res = parseMessage message none commandPfx none)
    (hne : commandPfx ≠ [])
    (hws : ∀ c ∈ commandPfx, c.isWhitespace = false)
    (hlen : message.length ≤ 4294967294) :
    (¬ commandPfx.isPrefixOf msg ∨ msg.length < 2 →
      res = { command := [], arguments := [], argumentString := [],
              separator := [' '], originalMessage := none }) ∧
    (commandPfx.isPrefixOf msg → ¬ msg.length < 2 →
      ∃ p0 rest,
        ((jsSplitAll msg [' ']).map jsTrim).filter (fun a => a.length > 0)
          = p0 :: rest ∧
        commandPfx <+: p0 ∧
        res.command
          = (if commandPfx.length < p0.length then p0.drop commandPfx.length
             else "undefined".data) ∧
        res.arguments = rest ∧
        res.argumentString
          = (if rest = [] then []
             else (jsSplitAll msg [' ']).getD 1 []) ∧
        res.separator = [' '] ∧
        res.originalMessage = some msg) := by
  subst hmsg
  subst hres
  constructor
  · intro hcond
    simp only [parseMessage]
    rw [if_pos hcond]
    rfl
  · intro hpf hlen2
    have hppfx : commandPfx <+: removeMultiCommandPrefix message commandPfx :=
      List.isPrefixOf_iff_prefix.mp hpf
    obtain ⟨tt, htt⟩ := hppfx
    have hallsp : ∀ c ∈ commandPfx, c ≠ ' ' := by
      intro c hc hceq
      have hwc := hws c hc
      rw [hceq] at hwc
      exact absurd hwc (by decide)
    obtain ⟨t, ht⟩ :=
      jsSplitAll_single_eq ' ' (removeMultiCommandPrefix message commandPfx)
    obtain ⟨v, hv⟩ := takeWhile_append_of_all ' ' commandPfx tt hallsp
    rw [htt] at hv
    obtain ⟨u, hu⟩ := jsTrim_keeps_start commandPfx _ hne hws ⟨v, hv⟩
    have hp0pos :
        0 < (jsTrim ((removeMultiCommandPrefix message commandPfx).takeWhile
          (fun x => x ≠ ' '))).length := by
      rw [hu]
      cases commandPfx with
      | nil => exact absurd rfl hne
      | cons a p => simp
    have htokens :
        ((jsSplitAll (removeMultiCommandPrefix message commandPfx) [' ']).map
            jsTrim).filter (fun a => a.length > 0)
          = jsTrim ((removeMultiCommandPrefix message commandPfx).takeWhile
              (fun x => x ≠ ' '))
            :: ((t.map jsTrim).filter (fun a => a.length > 0)) := by
      rw [ht]
      simp only [List.map_cons, List.filter_cons]
      rw [if_pos (by simpa using hp0pos)]
    have hlenM :
        (removeMultiCommandPrefix message commandPfx).length + 1
          ≤ 4294967295 := by
      have := removeMulti_length_le message commandPfx
      omega
    have hsplitu :
        jsSplit (removeMultiCommandPrefix message commandPfx) [' '] 4294967295
          = jsSplitAll (removeMultiCommandPrefix message commandPfx) [' '] :=
      jsSplit_unlimited _ _ _ hlenM
    have hcond :
        ¬ (¬ commandPfx.isPrefixOf
              (removeMultiCommandPrefix message commandPfx)
            ∨ (removeMultiCommandPrefix message commandPfx).length < 2) := by
      rw [not_or]
      exact ⟨not_not_intro hpf, hlen2⟩
    have hrec : parseMessage message none commandPfx none =
        { command :=
            (match (jsTrim ((removeMultiCommandPrefix message
                commandPfx).takeWhile (fun x => x ≠ ' '))).get?
                commandPfx.length with
             | some c => c ::
                (if (jsTrim ((removeMultiCommandPrefix message
                      commandPfx).takeWhile (fun x => x ≠ ' '))).length
                    > commandPfx.length + 1 then
                  (jsTrim ((removeMultiCommandPrefix message
                    commandPfx).takeWhile (fun x => x ≠ ' '))).drop
                    (commandPfx.length + 1)
                else [])
             | none => "undefined".data ++
                (if (jsTrim ((removeMultiCommandPrefix message
                      commandPfx).takeWhile (fun x => x ≠ ' '))).length
                    > commandPfx.length + 1 then
                  (jsTrim ((removeMultiCommandPrefix message
                    commandPfx).takeWhile (fun x => x ≠ ' '))).drop
                    (commandPfx.length + 1)
                else [])),
          arguments := (t.map jsTrim).filter (fun a => a.length > 0),
          argumentString :=
            (if ((t.map jsTrim).filter (fun a => a.length > 0)).length + 1
                > 1 then
              (jsSplit (removeMultiCommandPrefix message commandPfx) [' ']
                2).getD 1 []
            else []),
          separator := [' '],
          originalMessage :=
            some (removeMultiCommandPrefix message commandPfx) } := by
      simp only [parseMessage]
      rw [if_neg hcond]
      rw [show toUint32 (Option.getD none (-2) + 1) = 4294967295 from by
        decide]
      simp only [Option.getD_none]
      rw [hsplitu, htokens]
      simp only [List.getD_cons_zero, List.drop_succ_cons, List.drop_zero,
        List.length_cons]
    refine ⟨jsTrim ((removeMultiCommandPrefix message commandPfx).takeWhile
        (fun x => x ≠ ' ')),
      (t.map jsTrim).filter (fun a => a.length > 0),
      htokens, ⟨u, hu.symm⟩, ?_, ?_, ?_, ?_, ?_⟩
    · rw [hrec]
      dsimp only
      rw [hu]
      cases u with
      | nil =>
        simp only [List.append_nil]
        rw [List.get?_eq_none.mpr (le_refl commandPfx.length)]
        simp
      | cons x u2 =>
        rw [List.get?_append_right (le_refl commandPfx.length)]
        simp only [Nat.sub_self, List.get?_cons_zero]
        have hlt : commandPfx.length < (commandPfx ++ x :: u2).length := by
          simp only [List.length_append, List.length_cons]
          omega
        rw [if_pos hlt, List.drop_left]
        cases u2 with
        | nil =>
          have hng : ¬ (commandPfx ++ [x]).length > commandPfx.length + 1 := by
            simp only [List.length_append, List.length_cons, List.length_nil]
            omega
          rw [if_neg hng]
        | cons y u3 =>
          have hgt : (commandPfx ++ x :: y :: u3).length
              > commandPfx.length + 1 := by
            simp only [List.length_append, List.length_cons]
            omega
          rw [if_pos hgt]
          rw [show commandPfx.length + 1 = commandPfx.length + 1 from rfl,
            ← List.drop_drop, List.drop_left]
          simp
    · rw [hrec]
    · rw [hrec]
      dsimp only
      by_cases hr : (t.map jsTrim).filter (fun a => a.length > 0) = []
      · rw [if_pos hr, hr]
        simp
      · rw [if_neg hr]
        have : 0 < ((t.map jsTrim).filter (fun a => a.length > 0)).length :=
          List.length_pos.mpr hr
        rw [if_pos (by omega)]
        simp only [jsSplit]
        exact getD_one_take_two _
    · rw [hrec]
    · rw [hrec]


/-- Witness for the amended C8 theorem at the message `!foo bar` and
command prefix `!`. -/
theorem parseMessage_amended_witness :
    ("!".data ≠ [] ∧ (∀ c ∈ "!".data, c.isWhitespace = false) ∧
      ("!foo bar".data).length ≤ 4294967294) ∧
    ((¬ "!".data.isPrefixOf (removeMultiCommandPrefix "!foo bar".data "!".data)
        ∨ (removeMultiCommandPrefix "!foo bar".data "!".data).length < 2 →
      parseMessage "!foo bar".data none "!".data none
        = { command := [], arguments := [], argumentString := [],
            separator := [' '], originalMessage := none }) ∧
     ("!".data.isPrefixOf (removeMultiCommandPrefix "!foo bar".data "!".data) →
      ¬ (removeMultiCommandPrefix "!foo bar".data "!".data).length < 2 →
      ∃ p0 rest,
        ((jsSplitAll (removeMultiCommandPrefix "!foo bar".data "!".data)
            [' ']).map jsTrim).filter (fun a => a.length > 0) = p0 :: rest ∧
        "!".data <+: p0 ∧
        (parseMessage "!foo bar".data none "!".data none).command
          = (if ("!".data).length < p0.length then p0.drop ("!".data).length
             else "undefined".data) ∧
        (parseMessage "!foo bar".data none "!".data none).arguments = rest ∧
        (parseMessage "!foo bar".data none "!".data none).argumentString
          = (if rest = [] then []
             else (jsSplitAll (removeMultiCommandPrefix "!foo bar".data
               "!".data) [' ']).getD 1 []) ∧
        (parseMessage "!foo bar".data none "!".data none).separator = [' '] ∧
        (parseMessage "!foo bar".data none "!".data none).originalMessage
          = some (removeMultiCommandPrefix "!foo bar".data "!".data))) :=
  ⟨⟨by decide, by decide, by decide⟩,
   parseMessage_amended "!foo bar".data "!".data
     (removeMultiCommandPrefix "!foo bar".data "!".data)
     (parseMessage "!foo bar".data none "!".data none) rfl rfl
     (by decide) (by decide) (by decide)⟩

end SavCommands
